import Mathlib

/-!
# MouseDrive: the input-shaping control loop

A shallow embedding of `src/MouseDrive.cpp`.

Modelling conventions
* `double` is modelled by `ℚ` with exact arithmetic (no rounding, no NaN, no infinities);
  decimal literals such as `0.70` denote the exact rationals.
* Where the truth of a statement turns on rounding, the function is given a second time with
  every `double` literal and operation rounded by a parameter `rd`: `UpdateThrottleR` next
  to `UpdateThrottle` (`UpdateThrottleR id` is `UpdateThrottle`). `fl` is binary64 rounding
  (to nearest, ties to even, exponent range not bounded), and `IsRounding` lists the
  properties of a rounding that the general statements use.
* `std::chrono` time points are rationals counted in milliseconds, so that
  `duration<double, std::milli>(a - b).count()` is `a - b`.
* `int` / `long` / `LONG` are `Int` (no wrap-around is modelled).
* `std::pow` is a library function whose body is not part of the program; every
  function that calls it takes it as the parameter `pw`, and theorems state the
  values of `pw` they rely on as hypotheses.
* `cfg_` is never written after construction, so it is passed as a parameter.
-/

namespace detail

/-- The template `detail::clamp`. -/
def clamp {T : Type} [LinearOrder T] (value min_value max_value : T) : T :=
  if value < min_value then min_value else (if value > max_value then max_value else value)

/-- The template `detail::abs_val`, at `double`. -/
def abs_val (value : ℚ) : ℚ :=
  if value < 0 then -value else value

/-- The template `detail::min_val`. -/
def min_val {T : Type} [LinearOrder T] (a b : T) : T :=
  if a < b then a else b

/-- The template `detail::max_val`. -/
def max_val {T : Type} [LinearOrder T] (a b : T) : T :=
  if a > b then a else b

end detail

/-- The tunables of `struct Config`, with the default member initialisers. -/
structure Config where
  thread_interval_ms : Int := 4
  mouse_sens : ℚ := 3
  mouse_delta_cap : Int := 180
  throttle_curve_exp : ℚ := 2
  throttle_min_cut_at_full : ℚ := 7 / 10
  throttle_ramp_ms : Int := 75
  throttle_drop_ms : Int := 25
  throttle_use_ema : Bool := true
  throttle_ema_alpha : ℚ := 3 / 10
  brake_fast_apply_ms : Int := 10
  brake_hold_ms : Int := 1750
  brake_release_total_ms : Int := 2500
  brake_release_accel_exp : ℚ := 17 / 10
  brake_fast_release_ms : Int := 65
  brake_min_ratio_base : ℚ := 2 / 5
  brake_min_ratio_max : ℚ := 11 / 20
  brake_curve_exp : ℚ := 2
  brake_trail_enabled : Bool := false
  brake_after_release_hold_ratio : ℚ := 3 / 50
  brake_after_release_hold_ms : Int := 500

/-- The data members of `class MouseDrive` that the control loop reads and writes, with
their default member initialisers (the rest state). -/
structure MouseDrive where
  steering_ : ℚ := 0
  steering_filtered_ : ℚ := 0
  throttle_ : ℚ := 0
  throttle_target_ : ℚ := 0
  brake_ : ℚ := 0
  braking_active_ : Bool := false
  brake_start_time_ : ℚ := 0
  brake_post_hold_started_ : Bool := false
  brake_post_hold_start_time_ : ℚ := 0
  brake_post_hold_start_value_ : ℚ := 1
  brake_release_hold_active_ : Bool := false
  brake_release_hold_start_time_ : ℚ := 0
  last_update_ : ℚ := 0
  left_button_pressed_ : Bool := false
  right_button_pressed_ : Bool := false
  w_key_pressed_ : Bool := false
  s_key_pressed_ : Bool := false
  mouse_delta_x_ : Int := 0

/-- The fields of `RAWMOUSE` that `RawWndProc` reads. -/
structure RAWMOUSE where
  usFlags : Nat
  usButtonFlags : Nat
  lLastX : Int

namespace MouseDrive

/-- The constant `kSteeringRange`. -/
def kSteeringRange : Int := 16383

/-- The default configuration `Config{}`. -/
def defaultConfig : Config := {}

/-- The state of a freshly constructed `MouseDrive`; `last_update_` is the construction time. -/
def rest (t0 : ℚ) : MouseDrive := { last_update_ := t0 }

/-- `MOUSE_MOVE_ABSOLUTE` of the Windows headers. -/
def MOUSE_MOVE_ABSOLUTE : Nat := 0x01
/-- `RI_MOUSE_LEFT_BUTTON_DOWN` of the Windows headers. -/
def RI_MOUSE_LEFT_BUTTON_DOWN : Nat := 0x0001
/-- `RI_MOUSE_LEFT_BUTTON_UP` of the Windows headers. -/
def RI_MOUSE_LEFT_BUTTON_UP : Nat := 0x0002
/-- `RI_MOUSE_RIGHT_BUTTON_DOWN` of the Windows headers. -/
def RI_MOUSE_RIGHT_BUTTON_DOWN : Nat := 0x0004
/-- `RI_MOUSE_RIGHT_BUTTON_UP` of the Windows headers. -/
def RI_MOUSE_RIGHT_BUTTON_UP : Nat := 0x0008
/-- `RI_MOUSE_MIDDLE_BUTTON_DOWN` of the Windows headers. -/
def RI_MOUSE_MIDDLE_BUTTON_DOWN : Nat := 0x0010

/-- `MouseDrive::UpdateSteering`. -/
def UpdateSteering (cfg : Config) (s : MouseDrive) : MouseDrive :=
  let dx : Int := s.mouse_delta_x_
  let s := { s with mouse_delta_x_ := 0 }
  let s := { s with steering_ := s.steering_ + (dx : ℚ) * cfg.mouse_sens }
  let lo : ℚ := ((-kSteeringRange : Int) : ℚ)
  let hi : ℚ := ((kSteeringRange : Int) : ℚ)
  let s := { s with steering_ := detail.clamp s.steering_ lo hi }
  { s with steering_filtered_ := s.steering_ }

/-- `MouseDrive::SteeringRatio`. -/
def SteeringRatio (s : MouseDrive) : ℚ :=
  detail.clamp (detail.abs_val s.steering_filtered_ / ((kSteeringRange : Int) : ℚ)) 0 1

/-- `MouseDrive::RateFromTime`. -/
def RateFromTime (cfg : Config) (full_scale : ℚ) (milliseconds : Int) : ℚ :=
  if milliseconds ≤ 0 then full_scale
  else full_scale * ((cfg.thread_interval_ms : ℚ) / (milliseconds : ℚ))

/-- The value assigned to `throttle_target_` in the first half of `UpdateThrottle`. -/
def throttleTarget (pw : ℚ → ℚ → ℚ) (cfg : Config) (s : MouseDrive) : ℚ :=
  let start_cut : ℚ := 19 / 100
  let max_cut_start : ℚ := 80 / 100
  if s.left_button_pressed_ then
    let steering_ratio := SteeringRatio s
    let normalized : ℚ :=
      if steering_ratio ≤ start_cut then 0
      else if steering_ratio ≥ max_cut_start then 1
      else (steering_ratio - start_cut) / (max_cut_start - start_cut)
    let normalized := detail.clamp normalized 0 1
    let shaped := pw normalized cfg.throttle_curve_exp
    1 - shaped * (1 - cfg.throttle_min_cut_at_full)
  else 0

/-- `MouseDrive::UpdateThrottle`. -/
def UpdateThrottle (pw : ℚ → ℚ → ℚ) (cfg : Config) (time_scale_ms : ℚ) (s : MouseDrive) :
    MouseDrive :=
  let s := { s with throttle_target_ := throttleTarget pw cfg s }
  let throttle_inc := RateFromTime cfg 1 cfg.throttle_ramp_ms * time_scale_ms
  let throttle_dec := RateFromTime cfg 1 cfg.throttle_drop_ms * time_scale_ms
  let delta := s.throttle_target_ - s.throttle_
  let step := if delta > 0 then detail.min_val delta throttle_inc
    else detail.max_val delta (-throttle_dec)
  let candidate := s.throttle_ + step
  let candidate := if cfg.throttle_use_ema then
      candidate + cfg.throttle_ema_alpha * (s.throttle_target_ - candidate)
    else candidate
  { s with throttle_ := detail.clamp candidate 0 1 }

/-- The local `dyn_min` of `UpdateBrake`, after its clamp to `[0, 1]`. -/
def dyn_min (pw : ℚ → ℚ → ℚ) (cfg : Config) (s : MouseDrive) : ℚ :=
  let d : ℚ :=
    if cfg.brake_trail_enabled then
      let shaped := pw (SteeringRatio s) cfg.brake_curve_exp
      cfg.brake_min_ratio_base + (cfg.brake_min_ratio_max - cfg.brake_min_ratio_base) * shaped
    else cfg.brake_min_ratio_base
  detail.clamp d 0 1

/-- The branch `if (right_button_pressed_)` of `UpdateBrake`. -/
def brakePressed (pw : ℚ → ℚ → ℚ) (cfg : Config) (now time_scale_ms : ℚ) (s : MouseDrive) :
    MouseDrive :=
  let s := if !s.braking_active_ then
      { s with braking_active_ := true, brake_start_time_ := now,
               brake_post_hold_started_ := false, brake_release_hold_active_ := false }
    else s
  let elapsed_ms := now - s.brake_start_time_
  let dmin := dyn_min pw cfg s
  let fast_apply := RateFromTime cfg 1 cfg.brake_fast_apply_ms * time_scale_ms
  let s := if elapsed_ms < (cfg.brake_hold_ms : ℚ) then
      { s with brake_ := detail.clamp (s.brake_ + fast_apply) dmin 1 }
    else
      let s := if !s.brake_post_hold_started_ then
          { s with brake_post_hold_started_ := true, brake_post_hold_start_time_ := now,
                   brake_post_hold_start_value_ := s.brake_ }
        else s
      let release_elapsed := now - s.brake_post_hold_start_time_
      let progress := detail.clamp
        (release_elapsed / ((detail.max_val cfg.brake_release_total_ms 1 : Int) : ℚ)) 0 1
      let shaped := pw progress (detail.max_val cfg.brake_release_accel_exp (1 / 10))
      let target := s.brake_post_hold_start_value_
        - shaped * (s.brake_post_hold_start_value_ - dmin)
      { s with brake_ := detail.clamp target dmin 1 }
  { s with brake_release_hold_active_ := false }

/-- The `else` branch of `if (right_button_pressed_)` in `UpdateBrake`. -/
def brakeReleased (cfg : Config) (now time_scale_ms : ℚ) (s : MouseDrive) : MouseDrive :=
  let s := if s.braking_active_ then
      { s with braking_active_ := false, brake_post_hold_started_ := false,
               brake_release_hold_active_ := true, brake_release_hold_start_time_ := now,
               brake_ := detail.max_val s.brake_ cfg.brake_after_release_hold_ratio }
    else if s.brake_release_hold_active_ then
      let elapsed_hold := now - s.brake_release_hold_start_time_
      if elapsed_hold ≥ (cfg.brake_after_release_hold_ms : ℚ) then
        { s with brake_release_hold_active_ := false }
      else
        { s with brake_ := cfg.brake_after_release_hold_ratio }
    else s
  if !s.right_button_pressed_ && !s.brake_release_hold_active_ then
    let fast_release := RateFromTime cfg 1 cfg.brake_fast_release_ms * time_scale_ms
    { s with brake_ := detail.max_val 0 (s.brake_ - fast_release),
             brake_post_hold_started_ := false }
  else s

/-- `MouseDrive::UpdateBrake`. -/
def UpdateBrake (pw : ℚ → ℚ → ℚ) (cfg : Config) (now time_scale_ms : ℚ) (s : MouseDrive) :
    MouseDrive :=
  let s := if s.right_button_pressed_ then brakePressed pw cfg now time_scale_ms s
    else brakeReleased cfg now time_scale_ms s
  { s with brake_ := detail.clamp s.brake_ 0 1 }

/-- The time-scale factor computed by `Update` from the elapsed milliseconds. -/
def timeScale (cfg : Config) (delta_ms : ℚ) : ℚ :=
  let base_interval : ℚ := ((detail.max_val cfg.thread_interval_ms 1 : Int) : ℚ)
  detail.clamp (delta_ms / base_interval) (1 / 4) 3

/-- `MouseDrive::Update`; `now` is the clock reading and `w`, `sKey` the two
`GetAsyncKeyState` samples. The call of `SendToVJoy` writes no member. -/
def Update (pw : ℚ → ℚ → ℚ) (cfg : Config) (now : ℚ) (w sKey : Bool) (s : MouseDrive) :
    MouseDrive :=
  let delta_ms := now - s.last_update_
  let s := { s with last_update_ := now }
  let time_scale := timeScale cfg delta_ms
  let s := { s with w_key_pressed_ := w, s_key_pressed_ := sKey }
  let s := UpdateSteering cfg s
  let s := UpdateThrottle pw cfg time_scale s
  UpdateBrake pw cfg now time_scale s

/-- The `RIM_TYPEMOUSE` part of the `WM_INPUT` case of `MouseDrive::RawWndProc`. -/
def RawWndProc (cfg : Config) (mouse : RAWMOUSE) (s : MouseDrive) : MouseDrive :=
  let s := if mouse.usFlags &&& MOUSE_MOVE_ABSOLUTE = 0 then
      let dx : Int := mouse.lLastX
      let dx := detail.clamp dx (-cfg.mouse_delta_cap) cfg.mouse_delta_cap
      { s with mouse_delta_x_ := s.mouse_delta_x_ + dx }
    else s
  let flags := mouse.usButtonFlags
  let s := if flags &&& RI_MOUSE_LEFT_BUTTON_DOWN ≠ 0 then
    { s with left_button_pressed_ := true } else s
  let s := if flags &&& RI_MOUSE_LEFT_BUTTON_UP ≠ 0 then
    { s with left_button_pressed_ := false } else s
  let s := if flags &&& RI_MOUSE_RIGHT_BUTTON_DOWN ≠ 0 then
    { s with right_button_pressed_ := true } else s
  let s := if flags &&& RI_MOUSE_RIGHT_BUTTON_UP ≠ 0 then
    { s with right_button_pressed_ := false } else s
  if flags &&& RI_MOUSE_MIDDLE_BUTTON_DOWN ≠ 0 then
    { s with steering_ := 0, steering_filtered_ := 0 }
  else s

/-- What reaches the control state: a raw mouse packet, or a due tick. -/
inductive Input where
  | mouse (m : RAWMOUSE)
  | tick (now : ℚ) (w sKey : Bool)

/-- One input handled by the message loop of `Run`. -/
def handle (pw : ℚ → ℚ → ℚ) (cfg : Config) (s : MouseDrive) : Input → MouseDrive
  | Input.mouse m => RawWndProc cfg m s
  | Input.tick now w sKey => Update pw cfg now w sKey s

/-- The inputs handled in order, oldest first. -/
def run (pw : ℚ → ℚ → ℚ) (cfg : Config) (s : MouseDrive) (inputs : List Input) : MouseDrive :=
  inputs.foldl (handle pw cfg) s

/-- Ticks of `UpdateSteering` alone, oldest first; `dxs` lists the pending motion delta that
the raw-input handler has accumulated in `mouse_delta_x_` when each tick runs. -/
def steerRun (cfg : Config) (s : MouseDrive) (dxs : List Int) : MouseDrive :=
  dxs.foldl (fun st dx => UpdateSteering cfg { st with mouse_delta_x_ := dx }) s

/-- The three channels are inside their ranges. -/
def Bounded (s : MouseDrive) : Prop :=
  (-16383 : ℚ) ≤ s.steering_ ∧ s.steering_ ≤ 16383 ∧
    0 ≤ s.throttle_ ∧ s.throttle_ ≤ 1 ∧ 0 ≤ s.brake_ ∧ s.brake_ ≤ 1

/-- The value of the local `candidate` of `UpdateThrottle` after the rate limit, as a
function of the prior level `L` and the target `T`. -/
def throttleStepped (cfg : Config) (ts L T : ℚ) : ℚ :=
  L + (if T - L > 0 then detail.min_val (T - L) (RateFromTime cfg 1 cfg.throttle_ramp_ms * ts)
    else detail.max_val (T - L) (-(RateFromTime cfg 1 cfg.throttle_drop_ms * ts)))

/-- The value of the local `candidate` of `UpdateThrottle` just before the final clamp. -/
def throttleCandidate (cfg : Config) (ts L T : ℚ) : ℚ :=
  if cfg.throttle_use_ema then
    throttleStepped cfg ts L T + cfg.throttle_ema_alpha * (T - throttleStepped cfg ts L T)
  else throttleStepped cfg ts L T

/-- Ticks of `UpdateThrottle` alone, tick `n` taken with time scale `ts n`; the state after
`n` ticks. -/
def throttleRun (pw : ℚ → ℚ → ℚ) (cfg : Config) (ts : ℕ → ℚ) (s : MouseDrive) : ℕ → MouseDrive
  | 0 => s
  | n + 1 => UpdateThrottle pw cfg (ts n) (throttleRun pw cfg ts s n)

/-- The eased level of the Release phase of `UpdateBrake`, from the anchor
`(anchor_time, anchor_value)`, the floor `dmin` and the clock reading `now`. -/
def releaseEase (pw : ℚ → ℚ → ℚ) (cfg : Config) (dmin anchor_time anchor_value now : ℚ) : ℚ :=
  let release_elapsed := now - anchor_time
  let progress := detail.clamp
    (release_elapsed / ((detail.max_val cfg.brake_release_total_ms 1 : Int) : ℚ)) 0 1
  let shaped := pw progress (detail.max_val cfg.brake_release_accel_exp (1 / 10))
  let target := anchor_value - shaped * (anchor_value - dmin)
  detail.clamp target dmin 1

/-- The fast-apply increment of one tick. -/
def fastApply (cfg : Config) (ts : ℚ) : ℚ := RateFromTime cfg 1 cfg.brake_fast_apply_ms * ts

/-- The fast-release decrement of one tick. -/
def fastRelease (cfg : Config) (ts : ℚ) : ℚ := RateFromTime cfg 1 cfg.brake_fast_release_ms * ts

/-- What `UpdateBrake` reads besides the brake state: the level of the brake button, the
filtered steering position, the clock reading and the time scale. -/
structure BrakeTick where
  pressed : Bool
  steering : ℚ
  now : ℚ
  ts : ℚ

/-- One tick of `UpdateBrake` with the inputs of `k`. -/
def brakeTick (pw : ℚ → ℚ → ℚ) (cfg : Config) (s : MouseDrive) (k : BrakeTick) : MouseDrive :=
  UpdateBrake pw cfg k.now k.ts
    { s with right_button_pressed_ := k.pressed, steering_filtered_ := k.steering }

/-- Ticks of `UpdateBrake`, oldest first. -/
def brakeRun (pw : ℚ → ℚ → ℚ) (cfg : Config) (s : MouseDrive) (ticks : List BrakeTick) :
    MouseDrive :=
  ticks.foldl (brakeTick pw cfg) s

/-- The floor `dyn_min` of a tick with the inputs of `k`. -/
def tickMin (pw : ℚ → ℚ → ℚ) (cfg : Config) (k : BrakeTick) : ℚ :=
  dyn_min pw cfg { steering_filtered_ := k.steering }

/-- A computable instance of the parameter `pw`: `std::pow` at the exponent `2.0`, the default
of both curve exponents. At the bases `0` and `1` it has the value of `std::pow` for every
positive exponent. -/
def powSq (x _y : ℚ) : ℚ := x * x

/-- The flags of the post-release hold that began at clock reading `t0`. -/
def HoldPending (t0 : ℚ) (s : MouseDrive) : Prop :=
  s.braking_active_ = false ∧ s.brake_release_hold_active_ = true ∧
    s.brake_release_hold_start_time_ = t0

/-- The flags of the Idle phase. -/
def IdleFlags (s : MouseDrive) : Prop :=
  s.braking_active_ = false ∧ s.brake_release_hold_active_ = false

/-- A press that began at clock reading `T0` and has not reached `brake_hold_ms` yet. -/
def ApplyFlags (T0 : ℚ) (s : MouseDrive) : Prop :=
  s.braking_active_ = true ∧ s.brake_start_time_ = T0 ∧ s.brake_post_hold_started_ = false

/-- A press that began at clock reading `T0` and whose Release anchor is `(ta, va)`. -/
def AnchorFlags (T0 ta va : ℚ) (s : MouseDrive) : Prop :=
  s.braking_active_ = true ∧ s.brake_start_time_ = T0 ∧ s.brake_post_hold_started_ = true ∧
    s.brake_post_hold_start_time_ = ta ∧ s.brake_post_hold_start_value_ = va

/-- The clock reading of the first tick of the press `pre ++ [k1]`. -/
def pressStart (pre : List BrakeTick) (k1 : BrakeTick) : ℚ :=
  match pre with
  | [] => k1.now
  | p :: _ => p.now

/-- No Release anchor is marked as taken while no press is active. -/
def AnchorCleared (s : MouseDrive) : Prop :=
  s.braking_active_ = false → s.brake_post_hold_started_ = false

/-- The nearest integer to `q`, a tie going to the even one. -/
def roundHalfEven (q : ℚ) : ℤ :=
  let f : ℤ := ⌊q⌋
  let r : ℚ := q - (f : ℚ)
  if r < 1 / 2 then f else if 1 / 2 < r then f + 1 else if f % 2 = 0 then f else f + 1

/-- The rounding of one `double` operation: IEEE-754 binary64 round-to-nearest, ties to even,
on a 53-bit significand (exponent range not bounded: no overflow, no subnormals). -/
def fl (x : ℚ) : ℚ :=
  if x = 0 then 0
  else
    let e : ℤ := Int.log 2 |x| - 52
    (roundHalfEven (x / (2 : ℚ) ^ e) : ℚ) * (2 : ℚ) ^ e

/-- The properties of a rounding of `double` results that the throttle limiter depends on.
Exact arithmetic (`id`) has them, and so does IEEE-754 round-to-nearest on finite values:
it is monotone, leaves representable values alone, is odd, doubles exactly, and the
difference of two representable values within a factor 2 of each other is representable
(Sterbenz). -/
structure IsRounding (rd : ℚ → ℚ) : Prop where
  mono : ∀ x y : ℚ, x ≤ y → rd x ≤ rd y
  idem : ∀ x : ℚ, rd (rd x) = rd x
  zero : rd 0 = 0
  one : rd 1 = 1
  neg : ∀ x : ℚ, rd (-x) = -rd x
  double : ∀ x : ℚ, rd x = x → rd (2 * x) = 2 * x
  sterbenz : ∀ x y : ℚ, rd x = x → rd y = y → y / 2 ≤ x → x ≤ 2 * y → rd (x - y) = x - y

/-- `MouseDrive::SteeringRatio` with its `double` division rounded by `rd`. -/
def SteeringRatioR (rd : ℚ → ℚ) (s : MouseDrive) : ℚ :=
  detail.clamp (rd (detail.abs_val s.steering_filtered_ / ((kSteeringRange : Int) : ℚ))) 0 1

/-- `MouseDrive::RateFromTime` with each `double` operation rounded by `rd`. -/
def RateFromTimeR (rd : ℚ → ℚ) (cfg : Config) (full_scale : ℚ) (milliseconds : Int) : ℚ :=
  if milliseconds ≤ 0 then full_scale
  else rd (full_scale * rd ((cfg.thread_interval_ms : ℚ) / (milliseconds : ℚ)))

/-- The value assigned to `throttle_target_` in `UpdateThrottle`, with each `double`
literal and operation rounded by `rd`. -/
def throttleTargetR (rd : ℚ → ℚ) (pw : ℚ → ℚ → ℚ) (cfg : Config) (s : MouseDrive) : ℚ :=
  let start_cut : ℚ := rd (19 / 100)
  let max_cut_start : ℚ := rd (80 / 100)
  if s.left_button_pressed_ then
    let steering_ratio := SteeringRatioR rd s
    let normalized : ℚ :=
      if steering_ratio ≤ start_cut then 0
      else if steering_ratio ≥ max_cut_start then 1
      else rd (rd (steering_ratio - start_cut) / rd (max_cut_start - start_cut))
    let normalized := detail.clamp normalized 0 1
    let shaped := pw normalized (rd cfg.throttle_curve_exp)
    rd (1 - rd (shaped * rd (1 - rd cfg.throttle_min_cut_at_full)))
  else 0

/-- `MouseDrive::UpdateThrottle` with each `double` literal and operation rounded by `rd`,
in the order the source evaluates them. -/
def UpdateThrottleR (rd : ℚ → ℚ) (pw : ℚ → ℚ → ℚ) (cfg : Config) (time_scale_ms : ℚ)
    (s : MouseDrive) : MouseDrive :=
  let s := { s with throttle_target_ := throttleTargetR rd pw cfg s }
  let throttle_inc := rd (RateFromTimeR rd cfg 1 cfg.throttle_ramp_ms * time_scale_ms)
  let throttle_dec := rd (RateFromTimeR rd cfg 1 cfg.throttle_drop_ms * time_scale_ms)
  let delta := rd (s.throttle_target_ - s.throttle_)
  let step := if delta > 0 then detail.min_val delta throttle_inc
    else detail.max_val delta (-throttle_dec)
  let candidate := rd (s.throttle_ + step)
  let candidate := if cfg.throttle_use_ema then
      rd (candidate + rd (rd cfg.throttle_ema_alpha * rd (s.throttle_target_ - candidate)))
    else candidate
  { s with throttle_ := detail.clamp candidate 0 1 }

theorem clamp_mem {T : Type} [LinearOrder T] (v lo hi : T) (h : lo ≤ hi) :
    lo ≤ detail.clamp v lo hi ∧ detail.clamp v lo hi ≤ hi := by
  unfold detail.clamp
  split_ifs with h1 h2
  · exact ⟨le_refl _, h⟩
  · exact ⟨h, le_refl _⟩
  · exact ⟨not_lt.mp h1, not_lt.mp h2⟩

theorem clamp_of_mem {T : Type} [LinearOrder T] (v lo hi : T) (h1 : lo ≤ v) (h2 : v ≤ hi) :
    detail.clamp v lo hi = v := by
  unfold detail.clamp
  rw [if_neg (not_lt.mpr h1), if_neg (not_lt.mpr h2)]

/-! ### Fields that a sub-step leaves alone -/

theorem UpdateThrottle_steering (pw : ℚ → ℚ → ℚ) (cfg : Config) (ts : ℚ) (s : MouseDrive) :
    (UpdateThrottle pw cfg ts s).steering_ = s.steering_ := rfl

theorem brakePressed_steering (pw : ℚ → ℚ → ℚ) (cfg : Config) (now ts : ℚ) (s : MouseDrive) :
    (brakePressed pw cfg now ts s).steering_ = s.steering_ ∧
      (brakePressed pw cfg now ts s).throttle_ = s.throttle_ := by
  unfold brakePressed
  dsimp only
  split_ifs <;> exact ⟨rfl, rfl⟩

theorem brakeReleased_steering (cfg : Config) (now ts : ℚ) (s : MouseDrive) :
    (brakeReleased cfg now ts s).steering_ = s.steering_ ∧
      (brakeReleased cfg now ts s).throttle_ = s.throttle_ := by
  unfold brakeReleased
  dsimp only
  split_ifs <;> exact ⟨rfl, rfl⟩

theorem UpdateBrake_steering (pw : ℚ → ℚ → ℚ) (cfg : Config) (now ts : ℚ) (s : MouseDrive) :
    (UpdateBrake pw cfg now ts s).steering_ = s.steering_ ∧
      (UpdateBrake pw cfg now ts s).throttle_ = s.throttle_ := by
  unfold UpdateBrake
  dsimp only
  split_ifs
  · exact brakePressed_steering pw cfg now ts s
  · exact brakeReleased_steering cfg now ts s

theorem UpdateSteering_mem (cfg : Config) (s : MouseDrive) :
    (-16383 : ℚ) ≤ (UpdateSteering cfg s).steering_ ∧ (UpdateSteering cfg s).steering_ ≤ 16383 := by
  have h := clamp_mem (s.steering_ + (s.mouse_delta_x_ : ℚ) * cfg.mouse_sens)
    (((-kSteeringRange : Int) : ℚ)) ((kSteeringRange : Int) : ℚ) (by norm_num [kSteeringRange])
  norm_num [kSteeringRange] at h
  simpa [UpdateSteering, kSteeringRange] using h

theorem UpdateThrottle_mem (pw : ℚ → ℚ → ℚ) (cfg : Config) (ts : ℚ) (s : MouseDrive) :
    0 ≤ (UpdateThrottle pw cfg ts s).throttle_ ∧ (UpdateThrottle pw cfg ts s).throttle_ ≤ 1 := by
  unfold UpdateThrottle
  exact clamp_mem _ 0 1 (by norm_num)

theorem UpdateBrake_mem (pw : ℚ → ℚ → ℚ) (cfg : Config) (now ts : ℚ) (s : MouseDrive) :
    0 ≤ (UpdateBrake pw cfg now ts s).brake_ ∧ (UpdateBrake pw cfg now ts s).brake_ ≤ 1 := by
  unfold UpdateBrake
  exact clamp_mem _ 0 1 (by norm_num)

theorem Update_bounded (pw : ℚ → ℚ → ℚ) (cfg : Config) (now : ℚ) (w sKey : Bool)
    (s : MouseDrive) : Bounded (Update pw cfg now w sKey s) := by
  unfold Update
  dsimp only
  refine ⟨?_, ?_, ?_, ?_, (UpdateBrake_mem _ _ _ _ _).1, (UpdateBrake_mem _ _ _ _ _).2⟩
  · rw [(UpdateBrake_steering _ _ _ _ _).1, UpdateThrottle_steering]
    exact (UpdateSteering_mem _ _).1
  · rw [(UpdateBrake_steering _ _ _ _ _).1, UpdateThrottle_steering]
    exact (UpdateSteering_mem _ _).2
  · rw [(UpdateBrake_steering _ _ _ _ _).2]
    exact (UpdateThrottle_mem _ _ _ _).1
  · rw [(UpdateBrake_steering _ _ _ _ _).2]
    exact (UpdateThrottle_mem _ _ _ _).2

theorem RawWndProc_channels (cfg : Config) (m : RAWMOUSE) (s : MouseDrive) :
    (RawWndProc cfg m s).throttle_ = s.throttle_ ∧ (RawWndProc cfg m s).brake_ = s.brake_ ∧
      ((RawWndProc cfg m s).steering_ = s.steering_ ∨ (RawWndProc cfg m s).steering_ = 0) := by
  unfold RawWndProc
  dsimp only
  split_ifs <;> first | exact ⟨rfl, rfl, Or.inl rfl⟩ | exact ⟨rfl, rfl, Or.inr rfl⟩

theorem RawWndProc_bounded (cfg : Config) (m : RAWMOUSE) (s : MouseDrive) (h : Bounded s) :
    Bounded (RawWndProc cfg m s) := by
  obtain ⟨h1, h2, h3⟩ := RawWndProc_channels cfg m s
  unfold Bounded at *
  rw [h1, h2]
  rcases h3 with h3 | h3 <;> rw [h3]
  · exact h
  · exact ⟨by norm_num, by norm_num, h.2.2⟩

theorem run_bounded (pw : ℚ → ℚ → ℚ) (cfg : Config) (inputs : List Input) :
    ∀ s : MouseDrive, Bounded s → Bounded (run pw cfg s inputs) := by
  induction inputs with
  | nil => intro s h; exact h
  | cons i rest ih =>
    intro s h
    have hstep : Bounded (handle pw cfg s i) := by
      cases i with
      | mouse m => exact RawWndProc_bounded cfg m s h
      | tick now w sKey => exact Update_bounded pw cfg now w sKey s
    exact ih _ hstep

theorem rest_bounded (t0 : ℚ) : Bounded (rest t0) := by
  norm_num [Bounded, rest]

/-! ### The throttle limiter -/

/-- The rate-limited candidate of `UpdateThrottle` lies between level and target, and closes
the gap by the full rate unless it lands on the target. -/
theorem rate_step (L T inc dec : ℚ) (hinc : 0 ≤ inc) (hdec : 0 ≤ dec) :
    (L ≤ T → L ≤ L + (if T - L > 0 then detail.min_val (T - L) inc
          else detail.max_val (T - L) (-dec)) ∧
        L + (if T - L > 0 then detail.min_val (T - L) inc
          else detail.max_val (T - L) (-dec)) ≤ T ∧
        T - (L + (if T - L > 0 then detail.min_val (T - L) inc
          else detail.max_val (T - L) (-dec))) ≤ max 0 (T - L - inc)) ∧
    (T ≤ L → T ≤ L + (if T - L > 0 then detail.min_val (T - L) inc
          else detail.max_val (T - L) (-dec)) ∧
        L + (if T - L > 0 then detail.min_val (T - L) inc
          else detail.max_val (T - L) (-dec)) ≤ L ∧
        (L + (if T - L > 0 then detail.min_val (T - L) inc
          else detail.max_val (T - L) (-dec))) - T ≤ max 0 (L - T - dec)) := by
  unfold detail.min_val detail.max_val
  constructor
  · intro h
    split_ifs with h1 h2 h3
    · refine ⟨by linarith, by linarith, ?_⟩
      have : T - (L + (T - L)) = 0 := by ring
      rw [this]; exact le_max_left _ _
    · refine ⟨by linarith, by linarith, ?_⟩
      have : T - (L + inc) = T - L - inc := by ring
      rw [this]; exact le_max_right _ _
    · refine ⟨by linarith, by linarith, ?_⟩
      have : T - (L + (T - L)) = 0 := by ring
      rw [this]; exact le_max_left _ _
    · refine ⟨by linarith, by linarith, ?_⟩
      have : T - L = 0 := by linarith
      have h0 : dec = 0 := by linarith
      have : T - (L + -dec) = 0 := by rw [h0]; linarith
      rw [this]; exact le_max_left _ _
  · intro h
    split_ifs with h1 h2 h3
    · exact absurd h1 (by linarith)
    · exact absurd h1 (by linarith)
    · refine ⟨by linarith, by linarith, ?_⟩
      have : L + (T - L) - T = 0 := by ring
      rw [this]; exact le_max_left _ _
    · refine ⟨by linarith, by linarith, ?_⟩
      have : L + -dec - T = L - T - dec := by ring
      rw [this]; exact le_max_right _ _

/-- The smoothing stage moves the candidate towards the target and never past it. -/
theorem ema_step (c T a : ℚ) (ha0 : 0 ≤ a) (ha1 : a ≤ 1) :
    (c ≤ T → c ≤ c + a * (T - c) ∧ c + a * (T - c) ≤ T) ∧
    (T ≤ c → T ≤ c + a * (T - c) ∧ c + a * (T - c) ≤ c) := by
  constructor
  · intro h
    have h1 : 0 ≤ a * (T - c) := mul_nonneg ha0 (by linarith)
    have h2 : a * (T - c) ≤ 1 * (T - c) := mul_le_mul_of_nonneg_right ha1 (by linarith)
    exact ⟨by linarith, by linarith⟩
  · intro h
    have h1 : 0 ≤ a * (c - T) := mul_nonneg ha0 (by linarith)
    have h2 : a * (c - T) ≤ 1 * (c - T) := mul_le_mul_of_nonneg_right ha1 (by linarith)
    exact ⟨by nlinarith, by nlinarith⟩

theorem UpdateThrottle_throttle (pw : ℚ → ℚ → ℚ) (cfg : Config) (ts : ℚ) (s : MouseDrive) :
    (UpdateThrottle pw cfg ts s).throttle_ =
      detail.clamp (throttleCandidate cfg ts s.throttle_ (throttleTarget pw cfg s)) 0 1 := rfl

/-- Clamping to `[0, 1]` keeps a value between two bounds of which one is in `[0, 1]`. -/
theorem clamp01_between (c lo hi : ℚ) (h1 : lo ≤ c) (h2 : c ≤ hi) (hlo : lo ≤ 1) (hhi : 0 ≤ hi) :
    lo ≤ detail.clamp c 0 1 ∧ detail.clamp c 0 1 ≤ hi := by
  unfold detail.clamp
  split_ifs with a b
  · exact ⟨by linarith, hhi⟩
  · exact ⟨hlo, by linarith⟩
  · exact ⟨h1, h2⟩

/-- The candidate level lies between the prior level and the target, and the remaining gap
is the old gap less the rate budget, or nothing. -/
theorem throttleCandidate_between (cfg : Config) (ts L T : ℚ)
    (hinc : 0 ≤ RateFromTime cfg 1 cfg.throttle_ramp_ms * ts)
    (hdec : 0 ≤ RateFromTime cfg 1 cfg.throttle_drop_ms * ts)
    (ha : cfg.throttle_use_ema = true → 0 ≤ cfg.throttle_ema_alpha ∧ cfg.throttle_ema_alpha ≤ 1) :
    (L ≤ T → L ≤ throttleCandidate cfg ts L T ∧ throttleCandidate cfg ts L T ≤ T ∧
        T - throttleCandidate cfg ts L T
          ≤ max 0 (T - L - RateFromTime cfg 1 cfg.throttle_ramp_ms * ts)) ∧
    (T ≤ L → T ≤ throttleCandidate cfg ts L T ∧ throttleCandidate cfg ts L T ≤ L ∧
        throttleCandidate cfg ts L T - T
          ≤ max 0 (L - T - RateFromTime cfg 1 cfg.throttle_drop_ms * ts)) := by
  have hr : _ := rate_step L T _ _ hinc hdec
  change (L ≤ T → L ≤ throttleStepped cfg ts L T ∧ throttleStepped cfg ts L T ≤ T ∧
      T - throttleStepped cfg ts L T ≤ _) ∧ (T ≤ L → T ≤ throttleStepped cfg ts L T ∧
      throttleStepped cfg ts L T ≤ L ∧ throttleStepped cfg ts L T - T ≤ _) at hr
  unfold throttleCandidate
  split_ifs with he
  · obtain ⟨a0, a1⟩ := ha he
    constructor
    · intro h
      obtain ⟨r1, r2, r3⟩ := hr.1 h
      obtain ⟨e1, e2⟩ := (ema_step _ T _ a0 a1).1 r2
      exact ⟨by linarith, e2, by linarith⟩
    · intro h
      obtain ⟨r1, r2, r3⟩ := hr.2 h
      obtain ⟨e1, e2⟩ := (ema_step _ T _ a0 a1).2 r1
      exact ⟨e1, by linarith, by linarith⟩
  · exact hr

theorem throttleTarget_UpdateThrottle (pw : ℚ → ℚ → ℚ) (cfg : Config) (ts : ℚ) (s : MouseDrive) :
    throttleTarget pw cfg (UpdateThrottle pw cfg ts s) = throttleTarget pw cfg s := rfl

theorem throttleTarget_throttleRun (pw : ℚ → ℚ → ℚ) (cfg : Config) (ts : ℕ → ℚ) (s : MouseDrive)
    (n : ℕ) : throttleTarget pw cfg (throttleRun pw cfg ts s n) = throttleTarget pw cfg s := by
  induction n with
  | zero => rfl
  | succ k ih =>
    show throttleTarget pw cfg (UpdateThrottle pw cfg (ts k) (throttleRun pw cfg ts s k)) = _
    rw [throttleTarget_UpdateThrottle, ih]

/-- One tick shrinks the distance to a target in `[0, 1]` by at least `d`, a lower bound of
both rate budgets, or closes it. -/
theorem UpdateThrottle_gap (pw : ℚ → ℚ → ℚ) (cfg : Config) (ts d : ℚ) (s : MouseDrive)
    (hL : 0 ≤ s.throttle_ ∧ s.throttle_ ≤ 1)
    (hT : 0 ≤ throttleTarget pw cfg s ∧ throttleTarget pw cfg s ≤ 1)
    (hd : 0 ≤ d)
    (hinc : d ≤ RateFromTime cfg 1 cfg.throttle_ramp_ms * ts)
    (hdec : d ≤ RateFromTime cfg 1 cfg.throttle_drop_ms * ts)
    (ha : cfg.throttle_use_ema = true → 0 ≤ cfg.throttle_ema_alpha ∧ cfg.throttle_ema_alpha ≤ 1) :
    |(UpdateThrottle pw cfg ts s).throttle_ - throttleTarget pw cfg s|
      ≤ max 0 (|s.throttle_ - throttleTarget pw cfg s| - d) := by
  have hb := throttleCandidate_between cfg ts s.throttle_ (throttleTarget pw cfg s)
    (le_trans hd hinc) (le_trans hd hdec) ha
  rw [UpdateThrottle_throttle]
  rcases le_total s.throttle_ (throttleTarget pw cfg s) with h | h
  · obtain ⟨b1, b2, b3⟩ := hb.1 h
    rw [clamp_of_mem _ 0 1 (by linarith [hL.1]) (by linarith [hT.2])]
    rw [abs_of_nonpos (by linarith), abs_of_nonpos (by linarith)]
    rcases le_max_iff.mp b3 with b | b
    · exact le_trans (by linarith) (le_max_left _ _)
    · exact le_trans (by linarith) (le_max_right _ _)
  · obtain ⟨b1, b2, b3⟩ := hb.2 h
    rw [clamp_of_mem _ 0 1 (by linarith [hT.1]) (by linarith [hL.2])]
    rw [abs_of_nonneg (by linarith), abs_of_nonneg (by linarith)]
    rcases le_max_iff.mp b3 with b | b
    · exact le_trans (by linarith) (le_max_left _ _)
    · exact le_trans (by linarith) (le_max_right _ _)

/-- After `n` ticks the distance to the target is at most the first distance less `n * d`. -/
theorem throttleRun_gap (pw : ℚ → ℚ → ℚ) (cfg : Config) (ts : ℕ → ℚ) (d : ℚ) (s : MouseDrive)
    (hL : 0 ≤ s.throttle_ ∧ s.throttle_ ≤ 1)
    (hT : 0 ≤ throttleTarget pw cfg s ∧ throttleTarget pw cfg s ≤ 1)
    (hd : 0 ≤ d)
    (hinc : ∀ n, d ≤ RateFromTime cfg 1 cfg.throttle_ramp_ms * ts n)
    (hdec : ∀ n, d ≤ RateFromTime cfg 1 cfg.throttle_drop_ms * ts n)
    (ha : cfg.throttle_use_ema = true → 0 ≤ cfg.throttle_ema_alpha ∧ cfg.throttle_ema_alpha ≤ 1)
    (n : ℕ) :
    |(throttleRun pw cfg ts s n).throttle_ - throttleTarget pw cfg s|
      ≤ max 0 (|s.throttle_ - throttleTarget pw cfg s| - n * d) := by
  induction n with
  | zero => simp [throttleRun]
  | succ k ih =>
    have hk : 0 ≤ (throttleRun pw cfg ts s k).throttle_ ∧
        (throttleRun pw cfg ts s k).throttle_ ≤ 1 := by
      cases k with
      | zero => exact hL
      | succ j => exact UpdateThrottle_mem pw cfg (ts j) _
    have hstep := UpdateThrottle_gap pw cfg (ts k) d (throttleRun pw cfg ts s k) hk
      (by rw [throttleTarget_throttleRun]; exact hT) hd (hinc k) (hdec k) ha
    rw [throttleTarget_throttleRun] at hstep
    show |(UpdateThrottle pw cfg (ts k) (throttleRun pw cfg ts s k)).throttle_ - _| ≤ _
    refine le_trans hstep ?_
    push_cast
    rcases le_max_iff.mp ih with b | b
    · exact max_le (le_max_left _ _) (le_trans (by linarith) (le_max_left _ _))
    · exact max_le (le_max_left _ _) (le_trans (by linarith) (le_max_right _ _))

/-- Once `n * d` covers the first distance, the level is the target. -/
theorem throttleRun_settled (pw : ℚ → ℚ → ℚ) (cfg : Config) (ts : ℕ → ℚ) (d : ℚ) (s : MouseDrive)
    (hL : 0 ≤ s.throttle_ ∧ s.throttle_ ≤ 1)
    (hT : 0 ≤ throttleTarget pw cfg s ∧ throttleTarget pw cfg s ≤ 1)
    (hd : 0 ≤ d)
    (hinc : ∀ n, d ≤ RateFromTime cfg 1 cfg.throttle_ramp_ms * ts n)
    (hdec : ∀ n, d ≤ RateFromTime cfg 1 cfg.throttle_drop_ms * ts n)
    (ha : cfg.throttle_use_ema = true → 0 ≤ cfg.throttle_ema_alpha ∧ cfg.throttle_ema_alpha ≤ 1)
    (N : ℕ) (hN : |s.throttle_ - throttleTarget pw cfg s| ≤ N * d) (n : ℕ) (hn : N ≤ n) :
    (throttleRun pw cfg ts s n).throttle_ = throttleTarget pw cfg s := by
  have h := throttleRun_gap pw cfg ts d s hL hT hd hinc hdec ha n
  have hNn : (N : ℚ) * d ≤ (n : ℚ) * d :=
    mul_le_mul_of_nonneg_right (by exact_mod_cast hn) hd
  have h0 : max 0 (|s.throttle_ - throttleTarget pw cfg s| - n * d) = 0 :=
    max_eq_left (by linarith)
  rw [h0] at h
  have := abs_nonneg ((throttleRun pw cfg ts s n).throttle_ - throttleTarget pw cfg s)
  have h1 : |(throttleRun pw cfg ts s n).throttle_ - throttleTarget pw cfg s| = 0 :=
    le_antisymm h this
  have h2 := abs_eq_zero.mp h1
  linarith

/-! ### The brake state machine -/

theorem dyn_min_mem (pw : ℚ → ℚ → ℚ) (cfg : Config) (s : MouseDrive) :
    0 ≤ dyn_min pw cfg s ∧ dyn_min pw cfg s ≤ 1 := by
  unfold dyn_min
  exact clamp_mem _ 0 1 (by norm_num)

theorem clamp_clamp01 (x d : ℚ) (h0 : 0 ≤ d) (h1 : d ≤ 1) :
    detail.clamp (detail.clamp x d 1) 0 1 = detail.clamp x d 1 := by
  have h := clamp_mem x d 1 h1
  exact clamp_of_mem _ 0 1 (by linarith [h.1]) h.2

theorem tickMin_mem (pw : ℚ → ℚ → ℚ) (cfg : Config) (k : BrakeTick) :
    0 ≤ tickMin pw cfg k ∧ tickMin pw cfg k ≤ 1 := dyn_min_mem pw cfg _

/-- The first tick of a press, in the Apply phase (`0 < brake_hold_ms`). -/
theorem brakeTick_press_apply (pw : ℚ → ℚ → ℚ) (cfg : Config) (s : MouseDrive) (k : BrakeTick)
    (hp : k.pressed = true) (ha : s.braking_active_ = false)
    (he : (0 : ℚ) < (cfg.brake_hold_ms : ℚ)) :
    brakeTick pw cfg s k =
      { s with
        right_button_pressed_ := true
        steering_filtered_ := k.steering
        braking_active_ := true
        brake_start_time_ := k.now
        brake_post_hold_started_ := false
        brake_release_hold_active_ := false
        brake_ := detail.clamp (s.brake_ + fastApply cfg k.ts) (tickMin pw cfg k) 1 } := by
  have hd := tickMin_mem pw cfg k
  have hraw : brakeTick pw cfg s k =
      { s with
        right_button_pressed_ := true
        steering_filtered_ := k.steering
        braking_active_ := true
        brake_start_time_ := k.now
        brake_post_hold_started_ := false
        brake_release_hold_active_ := false
        brake_ := detail.clamp (detail.clamp (s.brake_ + fastApply cfg k.ts) (tickMin pw cfg k) 1) 0 1 } := by
    cases s
    cases k
    simp only at hp ha
    subst_vars
    simp only [brakeTick, UpdateBrake, brakePressed, brakeReleased, releaseEase, fastApply,
      fastRelease, tickMin, dyn_min, SteeringRatio]
    simp [he]
  rw [hraw]
  congr 1
  exact clamp_clamp01 _ _ hd.1 hd.2

/-- The first tick of a press when `brake_hold_ms ≤ 0`: the Release phase starts at once. -/
theorem brakeTick_press_release (pw : ℚ → ℚ → ℚ) (cfg : Config) (s : MouseDrive) (k : BrakeTick)
    (hp : k.pressed = true) (ha : s.braking_active_ = false)
    (he : ¬ (0 : ℚ) < (cfg.brake_hold_ms : ℚ)) :
    brakeTick pw cfg s k =
      { s with
        right_button_pressed_ := true
        steering_filtered_ := k.steering
        braking_active_ := true
        brake_start_time_ := k.now
        brake_post_hold_started_ := true
        brake_post_hold_start_time_ := k.now
        brake_post_hold_start_value_ := s.brake_
        brake_release_hold_active_ := false
        brake_ := releaseEase pw cfg (tickMin pw cfg k) k.now s.brake_ k.now } := by
  have hd := tickMin_mem pw cfg k
  have hraw : brakeTick pw cfg s k =
      { s with
        right_button_pressed_ := true
        steering_filtered_ := k.steering
        braking_active_ := true
        brake_start_time_ := k.now
        brake_post_hold_started_ := true
        brake_post_hold_start_time_ := k.now
        brake_post_hold_start_value_ := s.brake_
        brake_release_hold_active_ := false
        brake_ := detail.clamp (releaseEase pw cfg (tickMin pw cfg k) k.now s.brake_ k.now) 0 1 } := by
    cases s
    cases k
    simp only at hp ha
    subst_vars
    simp only [brakeTick, UpdateBrake, brakePressed, brakeReleased, releaseEase, fastApply,
      fastRelease, tickMin, dyn_min, SteeringRatio]
    simp [he]
  rw [hraw]
  congr 1
  exact clamp_clamp01 _ _ hd.1 hd.2

/-- A later tick of a press, in the Apply phase. -/
theorem brakeTick_hold_apply (pw : ℚ → ℚ → ℚ) (cfg : Config) (s : MouseDrive) (k : BrakeTick)
    (hp : k.pressed = true) (ha : s.braking_active_ = true)
    (he : k.now - s.brake_start_time_ < (cfg.brake_hold_ms : ℚ)) :
    brakeTick pw cfg s k =
      { s with
        right_button_pressed_ := true
        steering_filtered_ := k.steering
        brake_release_hold_active_ := false
        brake_ := detail.clamp (s.brake_ + fastApply cfg k.ts) (tickMin pw cfg k) 1 } := by
  have hd := tickMin_mem pw cfg k
  have hraw : brakeTick pw cfg s k =
      { s with
        right_button_pressed_ := true
        steering_filtered_ := k.steering
        brake_release_hold_active_ := false
        brake_ := detail.clamp (detail.clamp (s.brake_ + fastApply cfg k.ts) (tickMin pw cfg k) 1) 0 1 } := by
    cases s
    cases k
    simp only at hp ha he
    subst_vars
    simp only [brakeTick, UpdateBrake, brakePressed, brakeReleased, releaseEase, fastApply,
      fastRelease, tickMin, dyn_min, SteeringRatio]
    simp [he]
  rw [hraw]
  congr 1
  exact clamp_clamp01 _ _ hd.1 hd.2

/-- The first tick of a press at or after `brake_hold_ms`: the Release anchor is taken. -/
theorem brakeTick_hold_anchor (pw : ℚ → ℚ → ℚ) (cfg : Config) (s : MouseDrive) (k : BrakeTick)
    (hp : k.pressed = true) (ha : s.braking_active_ = true)
    (hs : s.brake_post_hold_started_ = false)
    (he : ¬ k.now - s.brake_start_time_ < (cfg.brake_hold_ms : ℚ)) :
    brakeTick pw cfg s k =
      { s with
        right_button_pressed_ := true
        steering_filtered_ := k.steering
        brake_post_hold_started_ := true
        brake_post_hold_start_time_ := k.now
        brake_post_hold_start_value_ := s.brake_
        brake_release_hold_active_ := false
        brake_ := releaseEase pw cfg (tickMin pw cfg k) k.now s.brake_ k.now } := by
  have hd := tickMin_mem pw cfg k
  have hraw : brakeTick pw cfg s k =
      { s with
        right_button_pressed_ := true
        steering_filtered_ := k.steering
        brake_post_hold_started_ := true
        brake_post_hold_start_time_ := k.now
        brake_post_hold_start_value_ := s.brake_
        brake_release_hold_active_ := false
        brake_ := detail.clamp (releaseEase pw cfg (tickMin pw cfg k) k.now s.brake_ k.now) 0 1 } := by
    cases s
    cases k
    simp only at hp ha hs he
    subst_vars
    simp only [brakeTick, UpdateBrake, brakePressed, brakeReleased, releaseEase, fastApply,
      fastRelease, tickMin, dyn_min, SteeringRatio]
    simp [he]
  rw [hraw]
  congr 1
  exact clamp_clamp01 _ _ hd.1 hd.2

/-- A tick of a press after the Release anchor was taken. -/
theorem brakeTick_hold_release (pw : ℚ → ℚ → ℚ) (cfg : Config) (s : MouseDrive) (k : BrakeTick)
    (hp : k.pressed = true) (ha : s.braking_active_ = true)
    (hs : s.brake_post_hold_started_ = true)
    (he : ¬ k.now - s.brake_start_time_ < (cfg.brake_hold_ms : ℚ)) :
    brakeTick pw cfg s k =
      { s with
        right_button_pressed_ := true
        steering_filtered_ := k.steering
        brake_release_hold_active_ := false
        brake_ := releaseEase pw cfg (tickMin pw cfg k) s.brake_post_hold_start_time_
          s.brake_post_hold_start_value_ k.now } := by
  have hd := tickMin_mem pw cfg k
  have hraw : brakeTick pw cfg s k =
      { s with
        right_button_pressed_ := true
        steering_filtered_ := k.steering
        brake_release_hold_active_ := false
        brake_ := detail.clamp (releaseEase pw cfg (tickMin pw cfg k) s.brake_post_hold_start_time_
          s.brake_post_hold_start_value_ k.now) 0 1 } := by
    cases s
    cases k
    simp only at hp ha hs he
    subst_vars
    simp only [brakeTick, UpdateBrake, brakePressed, brakeReleased, releaseEase, fastApply,
      fastRelease, tickMin, dyn_min, SteeringRatio]
    simp [he]
  rw [hraw]
  congr 1
  exact clamp_clamp01 _ _ hd.1 hd.2

/-- The first released tick after a press: the post-release hold starts. -/
theorem brakeTick_release_first (pw : ℚ → ℚ → ℚ) (cfg : Config) (s : MouseDrive) (k : BrakeTick)
    (hp : k.pressed = false) (ha : s.braking_active_ = true) :
    brakeTick pw cfg s k =
      { s with
        right_button_pressed_ := false
        steering_filtered_ := k.steering
        braking_active_ := false
        brake_post_hold_started_ := false
        brake_release_hold_active_ := true
        brake_release_hold_start_time_ := k.now
        brake_ := detail.clamp (detail.max_val s.brake_ cfg.brake_after_release_hold_ratio) 0 1 } := by
  cases s
  cases k
  simp only at hp ha
  subst_vars
  simp only [brakeTick, UpdateBrake, brakePressed, brakeReleased, fastRelease]
  simp []

/-- A released tick inside the post-release hold. -/
theorem brakeTick_release_hold (pw : ℚ → ℚ → ℚ) (cfg : Config) (s : MouseDrive) (k : BrakeTick)
    (hp : k.pressed = false) (ha : s.braking_active_ = false)
    (hh : s.brake_release_hold_active_ = true)
    (he : k.now - s.brake_release_hold_start_time_ < (cfg.brake_after_release_hold_ms : ℚ)) :
    brakeTick pw cfg s k =
      { s with
        right_button_pressed_ := false
        steering_filtered_ := k.steering
        brake_ := detail.clamp (cfg.brake_after_release_hold_ratio) 0 1 } := by
  cases s
  cases k
  simp only at hp ha hh he
  subst_vars
  simp only [brakeTick, UpdateBrake, brakePressed, brakeReleased, fastRelease]
  simp [not_le.mpr he]

/-- The released tick that ends the post-release hold. -/
theorem brakeTick_release_expire (pw : ℚ → ℚ → ℚ) (cfg : Config) (s : MouseDrive) (k : BrakeTick)
    (hp : k.pressed = false) (ha : s.braking_active_ = false)
    (hh : s.brake_release_hold_active_ = true)
    (he : (cfg.brake_after_release_hold_ms : ℚ) ≤ k.now - s.brake_release_hold_start_time_) :
    brakeTick pw cfg s k =
      { s with
        right_button_pressed_ := false
        steering_filtered_ := k.steering
        brake_post_hold_started_ := false
        brake_release_hold_active_ := false
        brake_ := detail.clamp (detail.max_val 0 (s.brake_ - fastRelease cfg k.ts)) 0 1 } := by
  cases s
  cases k
  simp only at hp ha hh he
  subst_vars
  simp only [brakeTick, UpdateBrake, brakePressed, brakeReleased, fastRelease]
  simp [he]

/-- A released tick with no press and no hold pending (Idle). -/
theorem brakeTick_release_idle (pw : ℚ → ℚ → ℚ) (cfg : Config) (s : MouseDrive) (k : BrakeTick)
    (hp : k.pressed = false) (ha : s.braking_active_ = false)
    (hh : s.brake_release_hold_active_ = false) :
    brakeTick pw cfg s k =
      { s with
        right_button_pressed_ := false
        steering_filtered_ := k.steering
        brake_post_hold_started_ := false
        brake_ := detail.clamp (detail.max_val 0 (s.brake_ - fastRelease cfg k.ts)) 0 1 } := by
  cases s
  cases k
  simp only at hp ha hh
  subst_vars
  simp only [brakeTick, UpdateBrake, brakePressed, brakeReleased, fastRelease]
  simp []

/-! ### Default configuration: rates and targets -/

theorem default_inc (t : ℚ) (h : 1 / 4 ≤ t) :
    (1 : ℚ) / 75 ≤ RateFromTime defaultConfig 1 defaultConfig.throttle_ramp_ms * t := by
  norm_num [RateFromTime, defaultConfig]
  linarith

theorem default_dec (t : ℚ) (h : 1 / 4 ≤ t) :
    (1 : ℚ) / 75 ≤ RateFromTime defaultConfig 1 defaultConfig.throttle_drop_ms * t := by
  norm_num [RateFromTime, defaultConfig]
  linarith

theorem default_target_full_lock (pw : ℚ → ℚ → ℚ) (s : MouseDrive) (hpw : pw 1 2 = 1)
    (hacc : s.left_button_pressed_ = true) (hsr : SteeringRatio s = 1) :
    throttleTarget pw defaultConfig s = 7 / 10 := by
  unfold throttleTarget
  simp only [hacc, hsr, if_true]
  norm_num [detail.clamp, defaultConfig, hpw]

theorem default_target_centre (pw : ℚ → ℚ → ℚ) (s : MouseDrive) (hpw : pw 0 2 = 0)
    (hacc : s.left_button_pressed_ = true) (hsr : SteeringRatio s = 0) :
    throttleTarget pw defaultConfig s = 1 := by
  unfold throttleTarget
  simp only [hacc, hsr, if_true]
  norm_num [detail.clamp, defaultConfig, hpw]

theorem default_ema :
    defaultConfig.throttle_use_ema = true →
      0 ≤ defaultConfig.throttle_ema_alpha ∧ defaultConfig.throttle_ema_alpha ≤ 1 := by
  intro _
  norm_num [defaultConfig]

theorem throttleRun_mem (pw : ℚ → ℚ → ℚ) (cfg : Config) (ts : ℕ → ℚ) (s : MouseDrive)
    (hL : 0 ≤ s.throttle_ ∧ s.throttle_ ≤ 1) (n : ℕ) :
    0 ≤ (throttleRun pw cfg ts s n).throttle_ ∧ (throttleRun pw cfg ts s n).throttle_ ≤ 1 := by
  cases n with
  | zero => exact hL
  | succ j => exact UpdateThrottle_mem pw cfg (ts j) _

/-- One tick never carries the level across the target or away from it. -/
theorem UpdateThrottle_between (pw : ℚ → ℚ → ℚ) (cfg : Config) (ts : ℚ) (s : MouseDrive)
    (hL : 0 ≤ s.throttle_ ∧ s.throttle_ ≤ 1)
    (hinc : 0 ≤ RateFromTime cfg 1 cfg.throttle_ramp_ms * ts)
    (hdec : 0 ≤ RateFromTime cfg 1 cfg.throttle_drop_ms * ts)
    (ha : cfg.throttle_use_ema = true → 0 ≤ cfg.throttle_ema_alpha ∧ cfg.throttle_ema_alpha ≤ 1) :
    (s.throttle_ ≤ throttleTarget pw cfg s →
        s.throttle_ ≤ (UpdateThrottle pw cfg ts s).throttle_ ∧
        (UpdateThrottle pw cfg ts s).throttle_ ≤ throttleTarget pw cfg s) ∧
    (throttleTarget pw cfg s ≤ s.throttle_ →
        throttleTarget pw cfg s ≤ (UpdateThrottle pw cfg ts s).throttle_ ∧
        (UpdateThrottle pw cfg ts s).throttle_ ≤ s.throttle_) := by
  have hb := throttleCandidate_between cfg ts s.throttle_ (throttleTarget pw cfg s) hinc hdec ha
  rw [UpdateThrottle_throttle]
  constructor
  · intro h
    obtain ⟨b1, b2, _⟩ := hb.1 h
    exact clamp01_between _ _ _ b1 b2 hL.2 (le_trans hL.1 h)
  · intro h
    obtain ⟨b1, b2, _⟩ := hb.2 h
    exact clamp01_between _ _ _ b1 b2 (le_trans h hL.2) hL.1

theorem brakePressed_floor (pw : ℚ → ℚ → ℚ) (cfg : Config) (now ts : ℚ) (s : MouseDrive) :
    dyn_min pw cfg s ≤ (brakePressed pw cfg now ts s).brake_ ∧
      (brakePressed pw cfg now ts s).brake_ ≤ 1 := by
  have hd := (dyn_min_mem pw cfg s).2
  unfold brakePressed
  dsimp only
  split_ifs <;> exact clamp_mem _ (dyn_min pw cfg s) 1 hd

theorem UpdateSteering_steering (cfg : Config) (s : MouseDrive) :
    (UpdateSteering cfg s).steering_ =
      detail.clamp (s.steering_ + (s.mouse_delta_x_ : ℚ) * cfg.mouse_sens) (-16383) 16383 := by
  simp [UpdateSteering, kSteeringRange]

theorem RawWndProc_middle (cfg : Config) (m : RAWMOUSE) (s : MouseDrive)
    (hmid : m.usButtonFlags &&& RI_MOUSE_MIDDLE_BUTTON_DOWN ≠ 0) :
    (RawWndProc cfg m s).steering_ = 0 ∧ (RawWndProc cfg m s).steering_filtered_ = 0 := by
  unfold RawWndProc
  dsimp only
  rw [if_pos hmid]
  exact ⟨rfl, rfl⟩

theorem RawWndProc_delta (cfg : Config) (m : RAWMOUSE) (s : MouseDrive) :
    (RawWndProc cfg m s).mouse_delta_x_ =
      s.mouse_delta_x_ + (if m.usFlags &&& MOUSE_MOVE_ABSOLUTE = 0 then
        detail.clamp m.lLastX (-cfg.mouse_delta_cap) cfg.mouse_delta_cap else 0) := by
  unfold RawWndProc
  dsimp only
  split_ifs <;> simp

/-! ### Runs of brake ticks -/

theorem brakeRun_nil (pw : ℚ → ℚ → ℚ) (cfg : Config) (s : MouseDrive) :
    brakeRun pw cfg s [] = s := rfl

theorem brakeRun_cons (pw : ℚ → ℚ → ℚ) (cfg : Config) (s : MouseDrive) (k : BrakeTick)
    (l : List BrakeTick) :
    brakeRun pw cfg s (k :: l) = brakeRun pw cfg (brakeTick pw cfg s k) l := rfl

theorem brakeRun_append (pw : ℚ → ℚ → ℚ) (cfg : Config) (s : MouseDrive)
    (l1 l2 : List BrakeTick) :
    brakeRun pw cfg s (l1 ++ l2) = brakeRun pw cfg (brakeRun pw cfg s l1) l2 := by
  unfold brakeRun
  rw [List.foldl_append]

theorem brakeRun_snoc (pw : ℚ → ℚ → ℚ) (cfg : Config) (s : MouseDrive)
    (l : List BrakeTick) (k : BrakeTick) :
    brakeRun pw cfg s (l ++ [k]) = brakeTick pw cfg (brakeRun pw cfg s l) k := by
  rw [brakeRun_append]
  rfl

theorem brakeTick_mem (pw : ℚ → ℚ → ℚ) (cfg : Config) (s : MouseDrive) (k : BrakeTick) :
    0 ≤ (brakeTick pw cfg s k).brake_ ∧ (brakeTick pw cfg s k).brake_ ≤ 1 :=
  UpdateBrake_mem pw cfg k.now k.ts _

theorem brakeRun_mem (pw : ℚ → ℚ → ℚ) (cfg : Config) (l : List BrakeTick) :
    ∀ s : MouseDrive, (0 ≤ s.brake_ ∧ s.brake_ ≤ 1) →
      0 ≤ (brakeRun pw cfg s l).brake_ ∧ (brakeRun pw cfg s l).brake_ ≤ 1 := by
  induction l with
  | nil => intro s h; exact h
  | cons k l ih => intro s _; exact ih _ (brakeTick_mem pw cfg s k)

theorem max_val_eq_max (a b : ℚ) : detail.max_val a b = max a b := by
  unfold detail.max_val
  split_ifs with h
  · exact (max_eq_left (le_of_lt h)).symm
  · exact (max_eq_right (not_lt.mp h)).symm

theorem RateFromTime_one_nonneg (cfg : Config) (ms : Int) (h : 0 ≤ cfg.thread_interval_ms) :
    0 ≤ RateFromTime cfg 1 ms := by
  unfold RateFromTime
  split_ifs with h1
  · norm_num
  · have hm : (0 : ℚ) ≤ (ms : ℚ) := by exact_mod_cast le_of_lt (not_le.mp h1)
    have hi : (0 : ℚ) ≤ (cfg.thread_interval_ms : ℚ) := by exact_mod_cast h
    have := div_nonneg hi hm
    linarith

theorem holdPending_run (pw : ℚ → ℚ → ℚ) (cfg : Config) (t0 : ℚ) (l : List BrakeTick) :
    ∀ s : MouseDrive, HoldPending t0 s →
      (∀ k ∈ l, k.pressed = false ∧ k.now - t0 < (cfg.brake_after_release_hold_ms : ℚ)) →
      HoldPending t0 (brakeRun pw cfg s l) := by
  induction l with
  | nil => intro s h _; exact h
  | cons k l ih =>
    intro s h hl
    obtain ⟨h1, h2, h3⟩ := h
    have hk := hl k (List.mem_cons_self k l)
    rw [brakeRun_cons]
    refine ih _ ?_ (fun j hj => hl j (List.mem_cons_of_mem k hj))
    rw [brakeTick_release_hold pw cfg s k hk.1 h1 h2 (by rw [h3]; exact hk.2)]
    exact ⟨h1, h2, h3⟩

theorem idleFlags_run (pw : ℚ → ℚ → ℚ) (cfg : Config) (l : List BrakeTick) :
    ∀ s : MouseDrive, IdleFlags s → (∀ k ∈ l, k.pressed = false) →
      IdleFlags (brakeRun pw cfg s l) := by
  induction l with
  | nil => intro s h _; exact h
  | cons k l ih =>
    intro s h hl
    obtain ⟨h1, h2⟩ := h
    rw [brakeRun_cons]
    refine ih _ ?_ (fun j hj => hl j (List.mem_cons_of_mem k hj))
    rw [brakeTick_release_idle pw cfg s k (hl k (List.mem_cons_self k l)) h1 h2]
    exact ⟨h1, h2⟩

/-- The fast-release step stays in `[0, 1]`, so the final clamp leaves it alone. -/
theorem clamp_fast_release (b r : ℚ) (hb : b ≤ 1) (hr : 0 ≤ r) :
    detail.clamp (detail.max_val 0 (b - r)) 0 1 = max 0 (b - r) := by
  rw [max_val_eq_max]
  exact clamp_of_mem _ 0 1 (le_max_left _ _) (max_le (by norm_num) (by linarith))

theorem applyFlags_run (pw : ℚ → ℚ → ℚ) (cfg : Config) (T0 : ℚ) (l : List BrakeTick) :
    ∀ s : MouseDrive, ApplyFlags T0 s →
      (∀ k ∈ l, k.pressed = true ∧ k.now - T0 < (cfg.brake_hold_ms : ℚ)) →
      ApplyFlags T0 (brakeRun pw cfg s l) := by
  induction l with
  | nil => intro s h _; exact h
  | cons k l ih =>
    intro s h hl
    obtain ⟨h1, h2, h3⟩ := h
    have hk := hl k (List.mem_cons_self k l)
    rw [brakeRun_cons]
    refine ih _ ?_ (fun j hj => hl j (List.mem_cons_of_mem k hj))
    rw [brakeTick_hold_apply pw cfg s k hk.1 h1 (by rw [h2]; exact hk.2)]
    exact ⟨h1, h2, h3⟩

theorem anchorFlags_tick (pw : ℚ → ℚ → ℚ) (cfg : Config) (T0 ta va : ℚ) (s : MouseDrive)
    (k : BrakeTick) (h : AnchorFlags T0 ta va s) (hk : k.pressed = true) :
    AnchorFlags T0 ta va (brakeTick pw cfg s k) := by
  obtain ⟨h1, h2, h3, h4, h5⟩ := h
  by_cases he : k.now - s.brake_start_time_ < (cfg.brake_hold_ms : ℚ)
  · rw [brakeTick_hold_apply pw cfg s k hk h1 he]
    exact ⟨h1, h2, h3, h4, h5⟩
  · rw [brakeTick_hold_release pw cfg s k hk h1 h3 he]
    exact ⟨h1, h2, h3, h4, h5⟩

theorem anchorFlags_run (pw : ℚ → ℚ → ℚ) (cfg : Config) (T0 ta va : ℚ) (l : List BrakeTick) :
    ∀ s : MouseDrive, AnchorFlags T0 ta va s → (∀ k ∈ l, k.pressed = true) →
      AnchorFlags T0 ta va (brakeRun pw cfg s l) := by
  induction l with
  | nil => intro s h _; exact h
  | cons k l ih =>
    intro s h hl
    rw [brakeRun_cons]
    exact ih _ (anchorFlags_tick pw cfg T0 ta va s k h (hl k (List.mem_cons_self k l)))
      (fun j hj => hl j (List.mem_cons_of_mem k hj))

/-- The anchor tick of a press: `pre` are the ticks of the press before `brake_hold_ms`,
`k1` is the first tick at or after it. The anchor is `k1.now` and the level just before
`k1`, and the level after `k1` is eased from that anchor. -/
theorem press_anchor (pw : ℚ → ℚ → ℚ) (cfg : Config) (s : MouseDrive)
    (pre : List BrakeTick) (k1 : BrakeTick)
    (hs : s.braking_active_ = false)
    (hpre : ∀ k ∈ pre, k.pressed = true ∧
      k.now - pressStart pre k1 < (cfg.brake_hold_ms : ℚ))
    (hk1 : k1.pressed = true)
    (he : (cfg.brake_hold_ms : ℚ) ≤ k1.now - pressStart pre k1) :
    AnchorFlags (pressStart pre k1) k1.now (brakeRun pw cfg s pre).brake_
        (brakeRun pw cfg s (pre ++ [k1])) ∧
      (brakeRun pw cfg s (pre ++ [k1])).brake_ =
        releaseEase pw cfg (tickMin pw cfg k1) k1.now (brakeRun pw cfg s pre).brake_ k1.now := by
  cases pre with
  | nil =>
    have hn : ¬ (0 : ℚ) < (cfg.brake_hold_ms : ℚ) := by
      have : (cfg.brake_hold_ms : ℚ) ≤ k1.now - k1.now := he
      rw [sub_self] at this
      exact not_lt.mpr this
    show AnchorFlags k1.now k1.now s.brake_ (brakeTick pw cfg s k1) ∧
      (brakeTick pw cfg s k1).brake_ = _
    rw [brakeTick_press_release pw cfg s k1 hk1 hs hn]
    exact ⟨⟨rfl, rfl, rfl, rfl, rfl⟩, rfl⟩
  | cons p l =>
    have hp := hpre p (List.mem_cons_self p l)
    have h0 : (0 : ℚ) < (cfg.brake_hold_ms : ℚ) := by
      have : p.now - p.now < (cfg.brake_hold_ms : ℚ) := hp.2
      rwa [sub_self] at this
    have ha0 : ApplyFlags p.now (brakeTick pw cfg s p) := by
      rw [brakeTick_press_apply pw cfg s p hp.1 hs h0]
      exact ⟨rfl, rfl, rfl⟩
    have ha : ApplyFlags p.now (brakeRun pw cfg s (p :: l)) := by
      rw [brakeRun_cons]
      exact applyFlags_run pw cfg p.now l _ ha0
        (fun j hj => hpre j (List.mem_cons_of_mem p hj))
    obtain ⟨a1, a2, a3⟩ := ha
    have hne : ¬ k1.now - (brakeRun pw cfg s (p :: l)).brake_start_time_
        < (cfg.brake_hold_ms : ℚ) := by
      rw [a2]; exact not_lt.mpr he
    rw [brakeRun_snoc, brakeTick_hold_anchor pw cfg _ k1 hk1 a1 a3 hne]
    exact ⟨⟨a1, a2, rfl, rfl, rfl⟩, rfl⟩

theorem default_tickMin (pw : ℚ → ℚ → ℚ) (k : BrakeTick) : tickMin pw defaultConfig k = 2 / 5 := by
  norm_num [tickMin, dyn_min, defaultConfig, detail.clamp]

/-- Once the release duration has passed since the anchor, the eased level is the floor. -/
theorem releaseEase_done (pw : ℚ → ℚ → ℚ) (cfg : Config) (d ta va now : ℚ) (hd : d ≤ 1)
    (hpw : pw 1 (detail.max_val cfg.brake_release_accel_exp (1 / 10)) = 1)
    (ht : ((detail.max_val cfg.brake_release_total_ms 1 : Int) : ℚ) ≤ now - ta) :
    releaseEase pw cfg d ta va now = d := by
  have hpos : (0 : ℚ) < ((detail.max_val cfg.brake_release_total_ms 1 : Int) : ℚ) := by
    have : (1 : Int) ≤ detail.max_val cfg.brake_release_total_ms 1 := by
      unfold detail.max_val
      split_ifs with h
      · exact le_of_lt h
      · exact le_refl _
    exact_mod_cast lt_of_lt_of_le zero_lt_one this
  have hq : 1 ≤ (now - ta) / ((detail.max_val cfg.brake_release_total_ms 1 : Int) : ℚ) := by
    rw [le_div_iff₀ hpos]; linarith
  have hprog : detail.clamp
      ((now - ta) / ((detail.max_val cfg.brake_release_total_ms 1 : Int) : ℚ)) 0 1 = 1 := by
    unfold detail.clamp
    rw [if_neg (by linarith)]
    split_ifs with h
    · rfl
    · linarith
  unfold releaseEase
  simp only [hprog, hpw]
  have : va - 1 * (va - d) = d := by ring
  rw [this]
  exact clamp_of_mem _ d 1 (le_refl _) hd

theorem brakeTick_pressed_active (pw : ℚ → ℚ → ℚ) (cfg : Config) (s : MouseDrive)
    (k : BrakeTick) (hk : k.pressed = true) :
    (brakeTick pw cfg s k).braking_active_ = true := by
  cases ha : s.braking_active_
  · by_cases h0 : (0 : ℚ) < (cfg.brake_hold_ms : ℚ)
    · rw [brakeTick_press_apply pw cfg s k hk ha h0]
    · rw [brakeTick_press_release pw cfg s k hk ha h0]
  · by_cases he : k.now - s.brake_start_time_ < (cfg.brake_hold_ms : ℚ)
    · rw [brakeTick_hold_apply pw cfg s k hk ha he]; exact ha
    · cases hs : s.brake_post_hold_started_
      · rw [brakeTick_hold_anchor pw cfg s k hk ha hs he]; exact ha
      · rw [brakeTick_hold_release pw cfg s k hk ha hs he]; exact ha

theorem anchorCleared_tick (pw : ℚ → ℚ → ℚ) (cfg : Config) (s : MouseDrive) (k : BrakeTick)
    (h : AnchorCleared s) : AnchorCleared (brakeTick pw cfg s k) := by
  intro hact
  cases hk : k.pressed
  · cases ha : s.braking_active_
    · cases hh : s.brake_release_hold_active_
      · rw [brakeTick_release_idle pw cfg s k hk ha hh]
      · by_cases he : (cfg.brake_after_release_hold_ms : ℚ)
            ≤ k.now - s.brake_release_hold_start_time_
        · rw [brakeTick_release_expire pw cfg s k hk ha hh he]
        · rw [brakeTick_release_hold pw cfg s k hk ha hh (not_le.mp he)]
          exact h ha
    · rw [brakeTick_release_first pw cfg s k hk ha]
  · rw [brakeTick_pressed_active pw cfg s k hk] at hact
    exact absurd hact (by decide)

theorem anchorCleared_run (pw : ℚ → ℚ → ℚ) (cfg : Config) (l : List BrakeTick) :
    ∀ s : MouseDrive, AnchorCleared s → AnchorCleared (brakeRun pw cfg s l) := by
  induction l with
  | nil => intro s h; exact h
  | cons k l ih => intro s h; exact ih _ (anchorCleared_tick pw cfg s k h)

/-! ### Binary64 evaluation of the throttle limiter -/

theorem two_zpow_pos (e : ℤ) : (0 : ℚ) < (2 : ℚ) ^ e := zpow_pos (by norm_num) e

theorem fl_ne_zero_eq (x : ℚ) (hx : x ≠ 0) :
    fl x = (roundHalfEven (x / (2 : ℚ) ^ (Int.log 2 |x| - 52)) : ℚ)
      * (2 : ℚ) ^ (Int.log 2 |x| - 52) := by
  unfold fl
  rw [if_neg hx]

/-- Evaluation of `fl` from any exponent that scales the number into `[2^52, 2^53)`. -/
theorem fl_of_exp (x : ℚ) (e : ℤ) (h1 : (2 : ℚ) ^ 52 ≤ |x| / (2 : ℚ) ^ e)
    (h2 : |x| / (2 : ℚ) ^ e < (2 : ℚ) ^ 53) :
    fl x = (roundHalfEven (x / (2 : ℚ) ^ e) : ℚ) * (2 : ℚ) ^ e := by
  have hu := two_zpow_pos e
  have hx0 : x ≠ 0 := by
    rintro rfl
    simp at h1
    linarith [show (0 : ℚ) < 2 ^ 52 by positivity]
  have hpos : 0 < |x| := abs_pos.mpr hx0
  have hlog : Int.log 2 |x| = e + 52 := by
    have a1 : e + 52 ≤ Int.log 2 |x| := by
      rw [← Int.zpow_le_iff_le_log (by norm_num) hpos, Nat.cast_ofNat,
        zpow_add₀ (by norm_num)]
      rw [le_div_iff₀ hu] at h1
      have : (2 : ℚ) ^ (52 : ℤ) = 2 ^ 52 := by norm_cast
      rw [this]
      linarith
    have a2 : Int.log 2 |x| < e + 53 := by
      rw [← Int.lt_zpow_iff_log_lt (by norm_num) hpos, Nat.cast_ofNat,
        zpow_add₀ (by norm_num)]
      rw [div_lt_iff₀ hu] at h2
      have : (2 : ℚ) ^ (53 : ℤ) = 2 ^ 53 := by norm_cast
      rw [this]
      linarith
    omega
  rw [fl_ne_zero_eq x hx0, hlog]
  have : e + 52 - 52 = e := by ring
  rw [this]

theorem UpdateThrottleR_exact (pw : ℚ → ℚ → ℚ) (cfg : Config) (ts : ℚ) (s : MouseDrive) :
    UpdateThrottleR id pw cfg ts s = UpdateThrottle pw cfg ts s := rfl

theorem isRounding_id : IsRounding id :=
  ⟨fun _ _ h => h, fun _ => rfl, rfl, rfl, fun _ => rfl, fun _ _ => rfl, fun _ _ _ _ _ _ => rfl⟩

/-- C1: from the rest state, after every sequence of raw mouse packets (motion, button
presses and releases, centre resets) and ticks of `Update` at any clock readings, the
steering position is in `[-16383, 16383]` and the throttle and brake levels are in `[0, 1]`;
the time scale of every tick is in `[0.25, 3.0]`. -/
theorem channel_bounds_invariant (pw : ℚ → ℚ → ℚ) (cfg : Config) (t0 : ℚ)
    (inputs : List Input) :
    ((-16383 : ℚ) ≤ (run pw cfg (rest t0) inputs).steering_ ∧
      (run pw cfg (rest t0) inputs).steering_ ≤ 16383 ∧
      0 ≤ (run pw cfg (rest t0) inputs).throttle_ ∧
      (run pw cfg (rest t0) inputs).throttle_ ≤ 1 ∧
      0 ≤ (run pw cfg (rest t0) inputs).brake_ ∧
      (run pw cfg (rest t0) inputs).brake_ ≤ 1) ∧
    ∀ delta_ms : ℚ, 1 / 4 ≤ timeScale cfg delta_ms ∧ timeScale cfg delta_ms ≤ 3 :=
  ⟨run_bounded pw cfg inputs (rest t0) (rest_bounded t0),
    fun _ => clamp_mem _ (1 / 4) 3 (by norm_num)⟩

/-- C2, as stated, fails: from the rest state, a motion packet of 10 counts, then a
middle-button-down packet, then one tick of `UpdateSteering` leave the steering position
at 30, not 0. -/
theorem center_reset_counterexample :
    (UpdateSteering defaultConfig
      (RawWndProc defaultConfig ⟨0, RI_MOUSE_MIDDLE_BUTTON_DOWN, 0⟩
        (RawWndProc defaultConfig ⟨0, 0, 10⟩ (rest 0)))).steering_ = 30 ∧
    (UpdateSteering defaultConfig
      (RawWndProc defaultConfig ⟨0, RI_MOUSE_MIDDLE_BUTTON_DOWN, 0⟩
        (RawWndProc defaultConfig ⟨0, 0, 10⟩ (rest 0)))).steering_ ≠ 0 := by
  have h : (UpdateSteering defaultConfig
      (RawWndProc defaultConfig ⟨0, RI_MOUSE_MIDDLE_BUTTON_DOWN, 0⟩
        (RawWndProc defaultConfig ⟨0, 0, 10⟩ (rest 0)))).steering_ = 30 := by
    rw [UpdateSteering_steering, RawWndProc_delta, RawWndProc_delta,
      (RawWndProc_middle _ _ _ (by decide)).1]
    norm_num [rest, defaultConfig, detail.clamp, MOUSE_MOVE_ABSOLUTE]
  exact ⟨h, by rw [h]; norm_num⟩

/-- C2, amended: a middle-button-down packet sets the steering position to exactly 0 when it
is handled; the pending delta is kept (the prior pending delta plus the capped motion of
the packet itself), so the tick that follows yields that pending delta times the
sensitivity, clamped to `[-16383, 16383]`, which is 0 when the pending delta is 0. -/
theorem center_reset_amended (cfg : Config) (m : RAWMOUSE) (s : MouseDrive)
    (hmid : m.usButtonFlags &&& RI_MOUSE_MIDDLE_BUTTON_DOWN ≠ 0) :
    (RawWndProc cfg m s).steering_ = 0 ∧
    (RawWndProc cfg m s).mouse_delta_x_ =
      s.mouse_delta_x_ + (if m.usFlags &&& MOUSE_MOVE_ABSOLUTE = 0 then
        detail.clamp m.lLastX (-cfg.mouse_delta_cap) cfg.mouse_delta_cap else 0) ∧
    (UpdateSteering cfg (RawWndProc cfg m s)).steering_ =
      detail.clamp (((RawWndProc cfg m s).mouse_delta_x_ : ℚ) * cfg.mouse_sens) (-16383) 16383 ∧
    ((RawWndProc cfg m s).mouse_delta_x_ = 0 →
      (UpdateSteering cfg (RawWndProc cfg m s)).steering_ = 0) := by
  have h0 := (RawWndProc_middle cfg m s hmid).1
  refine ⟨h0, RawWndProc_delta cfg m s, ?_, ?_⟩
  · rw [UpdateSteering_steering, h0, zero_add]
  · intro hz
    rw [UpdateSteering_steering, h0, hz]
    norm_num [detail.clamp]

/-- Witness of `center_reset_amended`: a middle-button-down packet with no motion, handled
at steering position 500 with nothing pending. -/
theorem center_reset_amended_witness :
    (16 &&& RI_MOUSE_MIDDLE_BUTTON_DOWN ≠ 0) ∧
    (RawWndProc defaultConfig ⟨0, 16, 0⟩ ({ steering_ := 500 } : MouseDrive)).steering_ = 0 ∧
    (UpdateSteering defaultConfig
      (RawWndProc defaultConfig ⟨0, 16, 0⟩ ({ steering_ := 500 } : MouseDrive))).steering_ = 0 :=
  ⟨by decide,
    (center_reset_amended defaultConfig ⟨0, 16, 0⟩ { steering_ := 500 } (by decide)).1,
    (center_reset_amended defaultConfig ⟨0, 16, 0⟩ { steering_ := 500 } (by decide)).2.2.2
      (by rw [RawWndProc_delta]; decide)⟩

/-- C3: for every configuration, prior state, clock reading and time scale, a tick of
`UpdateBrake` with the brake button pressed (Apply or Release phase) leaves the brake level
at or above the dynamic minimum of that tick, which is `brake_min_ratio_base` with trail
braking off and `base + (max - base) * steeringRatio ^ brake_curve_exp` with it on, clamped
to `[0, 1]`. -/
theorem brake_floor_while_pressed (pw : ℚ → ℚ → ℚ) (cfg : Config) (now ts : ℚ) (s : MouseDrive)
    (hp : s.right_button_pressed_ = true) :
    dyn_min pw cfg s ≤ (UpdateBrake pw cfg now ts s).brake_ ∧
    dyn_min pw cfg s = detail.clamp
      (if cfg.brake_trail_enabled then
        cfg.brake_min_ratio_base +
          (cfg.brake_min_ratio_max - cfg.brake_min_ratio_base) *
            pw (SteeringRatio s) cfg.brake_curve_exp
      else cfg.brake_min_ratio_base) 0 1 := by
  refine ⟨?_, rfl⟩
  have hf := brakePressed_floor pw cfg now ts s
  have hd := dyn_min_mem pw cfg s
  have hu : (UpdateBrake pw cfg now ts s).brake_
      = detail.clamp (brakePressed pw cfg now ts s).brake_ 0 1 := by
    unfold UpdateBrake
    simp only [hp, if_true]
  rw [hu, clamp_of_mem _ 0 1 (le_trans hd.1 hf.1) hf.2]
  exact hf.1

/-- Witness of `brake_floor_while_pressed`: the first pressed tick from rest, default
configuration. -/
theorem brake_floor_while_pressed_witness :
    dyn_min powSq defaultConfig { right_button_pressed_ := true } ≤
      (UpdateBrake powSq defaultConfig 0 1 { right_button_pressed_ := true }).brake_ :=
  (brake_floor_while_pressed powSq defaultConfig 0 1 { right_button_pressed_ := true } rfl).1

/-- C4: let braking be active and the hysteresis ratio lie in `[0, 1]`. The first tick with
the button released, at clock reading `k0.now`, leaves the brake level at or above
`brake_after_release_hold_ratio`. After every later released tick, as long as all ticks so
far are less than `brake_after_release_hold_ms` after `k0.now`, the level is exactly that
ratio. The first tick `k1` at or after `brake_after_release_hold_ms` ends the hold, and that
tick and every later released tick `k2` lower the level by
`RateFromTime(1, brake_fast_release_ms) * time scale`, floored at 0 (nominal interval and
time scales not negative). -/
theorem post_release_hysteresis (pw : ℚ → ℚ → ℚ) (cfg : Config) (s : MouseDrive)
    (k0 : BrakeTick)
    (hact : s.braking_active_ = true) (hrel : k0.pressed = false)
    (hratio : 0 ≤ cfg.brake_after_release_hold_ratio ∧ cfg.brake_after_release_hold_ratio ≤ 1) :
    cfg.brake_after_release_hold_ratio ≤ (brakeTick pw cfg s k0).brake_ ∧
    (∀ (hold : List BrakeTick) (kh : BrakeTick),
      (∀ k ∈ hold ++ [kh],
        k.pressed = false ∧ k.now - k0.now < (cfg.brake_after_release_hold_ms : ℚ)) →
      (brakeRun pw cfg (brakeTick pw cfg s k0) (hold ++ [kh])).brake_
        = cfg.brake_after_release_hold_ratio) ∧
    (∀ (hold : List BrakeTick) (k1 : BrakeTick) (later : List BrakeTick) (k2 : BrakeTick),
      (∀ k ∈ hold,
        k.pressed = false ∧ k.now - k0.now < (cfg.brake_after_release_hold_ms : ℚ)) →
      k1.pressed = false →
      (cfg.brake_after_release_hold_ms : ℚ) ≤ k1.now - k0.now →
      (∀ k ∈ later ++ [k2], k.pressed = false) →
      0 ≤ cfg.thread_interval_ms → 0 ≤ k1.ts → 0 ≤ k2.ts →
      (brakeRun pw cfg (brakeTick pw cfg s k0) (hold ++ [k1])).brake_release_hold_active_
        = false ∧
      (brakeRun pw cfg (brakeTick pw cfg s k0) (hold ++ [k1])).brake_
        = max 0 ((brakeRun pw cfg (brakeTick pw cfg s k0) hold).brake_
            - RateFromTime cfg 1 cfg.brake_fast_release_ms * k1.ts) ∧
      (brakeRun pw cfg (brakeTick pw cfg s k0) ((hold ++ [k1] ++ later) ++ [k2])).brake_
        = max 0 ((brakeRun pw cfg (brakeTick pw cfg s k0) (hold ++ [k1] ++ later)).brake_
            - RateFromTime cfg 1 cfg.brake_fast_release_ms * k2.ts)) := by
  have h0 := brakeTick_release_first pw cfg s k0 hrel hact
  have hpend : HoldPending k0.now (brakeTick pw cfg s k0) := by
    rw [h0]; exact ⟨rfl, rfl, rfl⟩
  have hmem0 := brakeTick_mem pw cfg s k0
  refine ⟨?_, ?_, ?_⟩
  · rw [h0]
    show cfg.brake_after_release_hold_ratio
      ≤ detail.clamp (detail.max_val s.brake_ cfg.brake_after_release_hold_ratio) 0 1
    rw [max_val_eq_max]
    exact (clamp01_between _ _ _ (le_max_right _ _) (le_refl _) hratio.2
      (le_trans hratio.1 (le_max_right _ _))).1
  · intro hold kh hk
    have hp := holdPending_run pw cfg k0.now hold _ hpend
      (fun k hkm => hk k (List.mem_append_left _ hkm))
    obtain ⟨p1, p2, p3⟩ := hp
    have hkh := hk kh (List.mem_append_right _ (List.mem_singleton_self kh))
    rw [brakeRun_snoc, brakeTick_release_hold pw cfg _ kh hkh.1 p1 p2 (by rw [p3]; exact hkh.2)]
    exact clamp_of_mem _ 0 1 hratio.1 hratio.2
  · intro hold k1 later k2 hh hk1 he1 hl hint ht1 ht2
    obtain ⟨p1, p2, p3⟩ := holdPending_run pw cfg k0.now hold _ hpend hh
    have hm1 := brakeRun_mem pw cfg hold _ hmem0
    have hr := RateFromTime_one_nonneg cfg cfg.brake_fast_release_ms hint
    have e1 := brakeTick_release_expire pw cfg _ k1 hk1 p1 p2 (by rw [p3]; exact he1)
    have hidle : IdleFlags (brakeRun pw cfg (brakeTick pw cfg s k0) (hold ++ [k1])) := by
      rw [brakeRun_snoc, e1]; exact ⟨p1, rfl⟩
    refine ⟨hidle.2, ?_, ?_⟩
    · rw [brakeRun_snoc, e1]
      exact clamp_fast_release _ _ hm1.2 (mul_nonneg hr ht1)
    · have hi2 : IdleFlags (brakeRun pw cfg (brakeTick pw cfg s k0) (hold ++ [k1] ++ later)) := by
        rw [brakeRun_append]
        exact idleFlags_run pw cfg later _ hidle
          (fun k hkm => hl k (List.mem_append_left _ hkm))
      have hm2 := brakeRun_mem pw cfg (hold ++ [k1] ++ later) _ hmem0
      rw [brakeRun_snoc, brakeTick_release_idle pw cfg _ k2
        (hl k2 (List.mem_append_right _ (List.mem_singleton_self k2))) hi2.1 hi2.2]
      exact clamp_fast_release _ _ hm2.2 (mul_nonneg hr ht2)

/-- Witness of `post_release_hysteresis`: default configuration, braking active at level 1,
button released at 2000 ms, a tick at 2004 ms inside the hold. -/
theorem post_release_hysteresis_witness :
    ((0 : ℚ) ≤ defaultConfig.brake_after_release_hold_ratio ∧
      defaultConfig.brake_after_release_hold_ratio ≤ 1) ∧
    defaultConfig.brake_after_release_hold_ratio ≤
      (brakeTick powSq defaultConfig { braking_active_ := true, brake_ := 1 }
        ⟨false, 0, 2000, 1⟩).brake_ ∧
    (brakeRun powSq defaultConfig
      (brakeTick powSq defaultConfig { braking_active_ := true, brake_ := 1 }
        ⟨false, 0, 2000, 1⟩) ([] ++ [⟨false, 0, 2004, 1⟩])).brake_
      = defaultConfig.brake_after_release_hold_ratio :=
  ⟨⟨by norm_num [defaultConfig], by norm_num [defaultConfig]⟩,
    (post_release_hysteresis powSq defaultConfig { braking_active_ := true, brake_ := 1 }
      ⟨false, 0, 2000, 1⟩ rfl rfl
      ⟨by norm_num [defaultConfig], by norm_num [defaultConfig]⟩).1,
    (post_release_hysteresis powSq defaultConfig { braking_active_ := true, brake_ := 1 }
      ⟨false, 0, 2000, 1⟩ rfl rfl
      ⟨by norm_num [defaultConfig], by norm_num [defaultConfig]⟩).2.1 [] ⟨false, 0, 2004, 1⟩
      (by
        intro k hk
        simp only [List.nil_append, List.mem_singleton] at hk
        subst hk
        exact ⟨rfl, by norm_num [defaultConfig]⟩)⟩

/-- C5: default configuration, accelerator engaged, steering ratio 1, any starting level in
`[0, 1]` and any time scales in `[0.25, 3.0]`: the throttle target of every tick is exactly
0.70, the level is exactly 0.70 after every tick from the 53rd on, and a level at or above
0.70 is not below 0.70 after the next tick. -/
theorem throttle_floor_full_lock (pw : ℚ → ℚ → ℚ) (ts : ℕ → ℚ) (s : MouseDrive)
    (hpw : pw 1 2 = 1)
    (hacc : s.left_button_pressed_ = true) (hsr : SteeringRatio s = 1)
    (hL : 0 ≤ s.throttle_ ∧ s.throttle_ ≤ 1)
    (hts : ∀ n, 1 / 4 ≤ ts n ∧ ts n ≤ 3) :
    (∀ n, (throttleRun pw defaultConfig ts s (n + 1)).throttle_target_ = 7 / 10) ∧
    (∀ n, 53 ≤ n → (throttleRun pw defaultConfig ts s n).throttle_ = 7 / 10) ∧
    (∀ n, 7 / 10 ≤ (throttleRun pw defaultConfig ts s n).throttle_ →
      7 / 10 ≤ (throttleRun pw defaultConfig ts s (n + 1)).throttle_) := by
  have hT : throttleTarget pw defaultConfig s = 7 / 10 :=
    default_target_full_lock pw s hpw hacc hsr
  have hTn : ∀ n, throttleTarget pw defaultConfig (throttleRun pw defaultConfig ts s n) = 7 / 10 :=
    fun n => by rw [throttleTarget_throttleRun, hT]
  refine ⟨fun n => hTn n, ?_, ?_⟩
  · intro n hn
    have h := throttleRun_settled pw defaultConfig ts (1 / 75) s hL
      (by rw [hT]; norm_num) (by norm_num)
      (fun k => default_inc (ts k) (hts k).1) (fun k => default_dec (ts k) (hts k).1)
      default_ema 53
      (by
        rw [hT, abs_le]
        constructor <;> norm_num <;> linarith [hL.1, hL.2]) n hn
    rw [h, hT]
  · intro n hn
    have hb := (UpdateThrottle_between pw defaultConfig (ts n) (throttleRun pw defaultConfig ts s n)
      (throttleRun_mem pw defaultConfig ts s hL n)
      (le_trans (by norm_num) (default_inc (ts n) (hts n).1))
      (le_trans (by norm_num) (default_dec (ts n) (hts n).1)) default_ema).2
    rw [hTn n] at hb
    exact (hb hn).1

/-- Witness of `throttle_floor_full_lock`: full right lock, throttle 0, time scale 1. -/
theorem throttle_floor_full_lock_witness :
    (powSq 1 2 = 1 ∧
      SteeringRatio { steering_filtered_ := 16383, left_button_pressed_ := true } = 1) ∧
    (throttleRun powSq defaultConfig (fun _ => 1)
      { steering_filtered_ := 16383, left_button_pressed_ := true } 53).throttle_ = 7 / 10 :=
  ⟨⟨by norm_num [powSq],
      by norm_num [SteeringRatio, detail.clamp, detail.abs_val, kSteeringRange]⟩,
    (throttle_floor_full_lock powSq (fun _ => 1)
      { steering_filtered_ := 16383, left_button_pressed_ := true }
      (by norm_num [powSq]) rfl
      (by norm_num [SteeringRatio, detail.clamp, detail.abs_val, kSteeringRange])
      ⟨by norm_num, by norm_num⟩ (fun _ => ⟨by norm_num, by norm_num⟩)).2.1 53 (le_refl _)⟩

/-- C6, as stated, fails: default configuration, from rest, button held, ticks at 0 ms,
1000 ms and 4250 ms (time scales 1, 3, 3). The tick at 4250 ms is the first at or after the
hold boundary, so it takes the Release anchor (level 1) with progress 0, and the brake level
after it is 1, not the dynamic minimum 0.40. -/
theorem brake_release_scenario_counterexample :
    (brakeRun powSq defaultConfig (rest 0)
      [⟨true, 0, 0, 1⟩, ⟨true, 0, 1000, 3⟩, ⟨true, 0, 4250, 3⟩]).brake_ = 1 ∧
    tickMin powSq defaultConfig ⟨true, 0, 4250, 3⟩ = 2 / 5 ∧
    (brakeRun powSq defaultConfig (rest 0)
      [⟨true, 0, 0, 1⟩, ⟨true, 0, 1000, 3⟩, ⟨true, 0, 4250, 3⟩]).brake_ ≠ 2 / 5 := by
  have h : (brakeRun powSq defaultConfig (rest 0)
      [⟨true, 0, 0, 1⟩, ⟨true, 0, 1000, 3⟩, ⟨true, 0, 4250, 3⟩]).brake_ = 1 := by
    rw [brakeRun_cons, brakeRun_cons, brakeRun_cons, brakeRun_nil]
    rw [brakeTick_press_apply powSq defaultConfig (rest 0) ⟨true, 0, 0, 1⟩ rfl rfl
      (by norm_num [defaultConfig])]
    rw [brakeTick_hold_apply powSq defaultConfig _ ⟨true, 0, 1000, 3⟩ rfl rfl
      (by norm_num [defaultConfig])]
    rw [brakeTick_hold_anchor powSq defaultConfig _ ⟨true, 0, 4250, 3⟩ rfl rfl rfl
      (by norm_num [defaultConfig])]
    simp only [default_tickMin]
    norm_num [releaseEase, fastApply, RateFromTime, rest, defaultConfig, detail.clamp,
      detail.max_val, powSq]
  exact ⟨h, default_tickMin _ _, by rw [h]; norm_num⟩

/-- C6, amended: default configuration, from rest, button held from a tick `k0` at 0 ms;
`pre` are the ticks before 1750 ms, `k1` is the first tick at or after 1750 ms and `k2` any
later tick at least 2500 ms after `k1`. The brake level after `k2` is the dynamic minimum
0.40. With a tick at exactly 1750 ms, `k2` may be the tick at 4250 ms. -/
theorem brake_release_scenario_amended (pw : ℚ → ℚ → ℚ) (t0 : ℚ) (k0 : BrakeTick)
    (pre : List BrakeTick) (k1 : BrakeTick) (mid : List BrakeTick) (k2 : BrakeTick)
    (hpw : pw 1 (17 / 10) = 1)
    (hpress : ∀ k ∈ (k0 :: pre) ++ [k1] ++ mid ++ [k2], k.pressed = true)
    (h0 : k0.now = 0)
    (hpre : ∀ k ∈ pre, k.now < 1750)
    (h1 : 1750 ≤ k1.now)
    (h2 : k1.now + 2500 ≤ k2.now) :
    (brakeRun pw defaultConfig (rest t0) ((k0 :: pre) ++ [k1] ++ mid ++ [k2])).brake_ = 2 / 5 ∧
    tickMin pw defaultConfig k2 = 2 / 5 := by
  refine ⟨?_, default_tickMin pw k2⟩
  have hstart : pressStart (k0 :: pre) k1 = 0 := h0
  have hk0 : k0.pressed = true := hpress k0 (by simp)
  have hk1 : k1.pressed = true := hpress k1 (by simp)
  have hk2 : k2.pressed = true := hpress k2 (by simp)
  have hA := (press_anchor pw defaultConfig (rest t0) (k0 :: pre) k1 rfl
    (by
      intro k hk
      refine ⟨hpress k (by simp only [List.mem_append]; exact Or.inl (Or.inl (Or.inl hk))), ?_⟩
      rw [hstart, sub_zero]
      rcases List.mem_cons.mp hk with rfl | hk
      · rw [h0]; norm_num [defaultConfig]
      · have := hpre k hk
        norm_num [defaultConfig]; exact this)
    hk1
    (by rw [hstart, sub_zero]; norm_num [defaultConfig]; exact h1)).1
  rw [hstart] at hA
  have hM := anchorFlags_run pw defaultConfig 0 k1.now _ mid _ hA
    (fun k hk => hpress k (by
      simp only [List.mem_append]; exact Or.inl (Or.inr hk)))
  rw [← brakeRun_append] at hM
  obtain ⟨m1, m2, m3, m4, m5⟩ := hM
  have hne : ¬ k2.now - (brakeRun pw defaultConfig (rest t0)
      ((k0 :: pre) ++ [k1] ++ mid)).brake_start_time_ < (defaultConfig.brake_hold_ms : ℚ) := by
    rw [m2, sub_zero]
    norm_num [defaultConfig]
    linarith
  rw [brakeRun_snoc, brakeTick_hold_release pw defaultConfig _ k2 hk2 m1 m3 hne]
  show releaseEase pw defaultConfig (tickMin pw defaultConfig k2) _ _ k2.now = 2 / 5
  rw [m4, default_tickMin]
  exact releaseEase_done pw defaultConfig (2 / 5) k1.now _ k2.now (by norm_num)
    (by norm_num [defaultConfig, detail.max_val]; exact hpw)
    (by norm_num [defaultConfig, detail.max_val]; linarith)

/-- Witness of `brake_release_scenario_amended`: ticks at 0, 1000, 1750, 3000 and 4250 ms. -/
theorem brake_release_scenario_amended_witness :
    (powSq 1 (17 / 10) = 1 ∧ ((0 : ℚ) = 0) ∧ (1750 : ℚ) ≤ 1750 ∧ (1750 + 2500 : ℚ) ≤ 4250) ∧
    (brakeRun powSq defaultConfig (rest 0)
      (((⟨true, 0, 0, 1⟩ : BrakeTick) :: [⟨true, 0, 1000, 3⟩]) ++ [⟨true, 0, 1750, 3⟩]
        ++ [⟨true, 0, 3000, 3⟩] ++ [⟨true, 0, 4250, 3⟩])).brake_ = 2 / 5 :=
  ⟨⟨by norm_num [powSq], rfl, le_refl _, by norm_num⟩,
    (brake_release_scenario_amended powSq 0 ⟨true, 0, 0, 1⟩ [⟨true, 0, 1000, 3⟩]
      ⟨true, 0, 1750, 3⟩ [⟨true, 0, 3000, 3⟩] ⟨true, 0, 4250, 3⟩
      (by norm_num [powSq])
      (by
        intro k hk
        simp only [List.cons_append, List.nil_append, List.mem_cons, List.mem_singleton,
          List.mem_nil_iff, or_false] at hk
        rcases hk with rfl | rfl | rfl | rfl | rfl <;> rfl)
      rfl
      (by
        intro k hk
        rw [List.mem_singleton] at hk
        subst hk
        norm_num)
      (le_refl _) (by norm_num)).1⟩

/-- C8: default configuration, throttle 0 at the start, accelerator engaged, steering ratio
0, any time scales in `[0.25, 3.0]`: the target of every tick is 1, and there is a tick
count below 500 (75 does) from which on the throttle level is exactly 1. -/
theorem throttle_saturates (pw : ℚ → ℚ → ℚ) (ts : ℕ → ℚ) (s : MouseDrive)
    (hpw : pw 0 2 = 0)
    (hacc : s.left_button_pressed_ = true) (hsr : SteeringRatio s = 0)
    (hL : s.throttle_ = 0)
    (hts : ∀ n, 1 / 4 ≤ ts n ∧ ts n ≤ 3) :
    (∀ n, (throttleRun pw defaultConfig ts s (n + 1)).throttle_target_ = 1) ∧
    ∃ n, n < 500 ∧ ∀ m, n ≤ m → (throttleRun pw defaultConfig ts s m).throttle_ = 1 := by
  have hT : throttleTarget pw defaultConfig s = 1 := default_target_centre pw s hpw hacc hsr
  refine ⟨fun n => by
    show throttleTarget pw defaultConfig (throttleRun pw defaultConfig ts s n) = 1
    rw [throttleTarget_throttleRun, hT], 75, by norm_num, ?_⟩
  intro m hm
  have h := throttleRun_settled pw defaultConfig ts (1 / 75) s
    (by rw [hL]; norm_num) (by rw [hT]; norm_num) (by norm_num)
    (fun k => default_inc (ts k) (hts k).1) (fun k => default_dec (ts k) (hts k).1)
    default_ema 75 (by rw [hT, hL]; norm_num) m hm
  rw [h, hT]

/-- Witness of `throttle_saturates`: steering centred, time scale 1 on every tick. -/
theorem throttle_saturates_witness :
    (powSq 0 2 = 0 ∧ SteeringRatio { left_button_pressed_ := true } = 0) ∧
    ∃ n, n < 500 ∧ ∀ m, n ≤ m →
      (throttleRun powSq defaultConfig (fun _ => 1) { left_button_pressed_ := true } m).throttle_
        = 1 :=
  ⟨⟨by norm_num [powSq],
      by norm_num [SteeringRatio, detail.clamp, detail.abs_val, kSteeringRange]⟩,
    (throttle_saturates powSq (fun _ => 1) { left_button_pressed_ := true }
      (by norm_num [powSq]) rfl
      (by norm_num [SteeringRatio, detail.clamp, detail.abs_val, kSteeringRange])
      rfl (fun _ => ⟨by norm_num, by norm_num⟩)).2⟩

/-- One tick of `UpdateSteering` with a positive pending delta, from a position within
range. -/
theorem UpdateSteering_mono (cfg : Config) (s : MouseDrive)
    (hhi : s.steering_ ≤ 16383) (hdx : 0 < s.mouse_delta_x_) (hsens : 0 < cfg.mouse_sens) :
    s.steering_ ≤ (UpdateSteering cfg s).steering_ ∧
      (s.steering_ = 16383 → (UpdateSteering cfg s).steering_ = 16383) := by
  have hd : (0 : ℚ) < (s.mouse_delta_x_ : ℚ) := by exact_mod_cast hdx
  have hpos : 0 < (s.mouse_delta_x_ : ℚ) * cfg.mouse_sens := mul_pos hd hsens
  rw [UpdateSteering_steering]
  unfold detail.clamp
  constructor
  · split_ifs with h1 h2
    · linarith
    · exact hhi
    · linarith
  · intro he
    rw [if_neg (by linarith), if_pos (by linarith)]

theorem steerRun_snoc (cfg : Config) (s : MouseDrive) (dxs : List Int) (d : Int) :
    steerRun cfg s (dxs ++ [d])
      = UpdateSteering cfg { steerRun cfg s dxs with mouse_delta_x_ := d } := by
  unfold steerRun
  rw [List.foldl_append]
  rfl

theorem steerRun_le (cfg : Config) (dxs : List Int) :
    ∀ s : MouseDrive, s.steering_ ≤ 16383 → (steerRun cfg s dxs).steering_ ≤ 16383 := by
  induction dxs with
  | nil => intro s h; exact h
  | cons d l ih => intro s _; exact ih _ (UpdateSteering_mem cfg _).2

theorem steerRun_saturated (cfg : Config) (hsens : 0 < cfg.mouse_sens) (dxs : List Int) :
    ∀ s : MouseDrive, (∀ d ∈ dxs, 0 < d) → s.steering_ = 16383 →
      (steerRun cfg s dxs).steering_ = 16383 := by
  induction dxs with
  | nil => intro s _ h; exact h
  | cons d l ih =>
    intro s hd h
    refine ih _ (fun x hx => hd x (List.mem_cons_of_mem d hx)) ?_
    exact (UpdateSteering_mono cfg { s with mouse_delta_x_ := d } (le_of_eq h)
      (hd d (List.mem_cons_self d l)) hsens).2 h

/-- C9: with the steering position at most `+16383` (so for every position in
`[-16383, 16383]`), a positive pending motion delta on every tick and a sensitivity above 0, and no reset: the position after `UpdateSteering` is
at least the position before it, on the first tick and on every later such tick, and a
position equal to `+16383` is `+16383` after every later such tick. -/
theorem steering_monotone (cfg : Config) (s : MouseDrive)
    (hhi : s.steering_ ≤ 16383)
    (hdx : 0 < s.mouse_delta_x_) (hsens : 0 < cfg.mouse_sens) :
    s.steering_ ≤ (UpdateSteering cfg s).steering_ ∧
    (s.steering_ = 16383 → (UpdateSteering cfg s).steering_ = 16383) ∧
    (∀ (dxs : List Int) (d : Int), (∀ x ∈ dxs ++ [d], 0 < x) →
      (steerRun cfg s dxs).steering_ ≤ (steerRun cfg s (dxs ++ [d])).steering_ ∧
      ((steerRun cfg s dxs).steering_ = 16383 →
        (steerRun cfg s (dxs ++ [d])).steering_ = 16383)) ∧
    (∀ dxs : List Int, (∀ x ∈ dxs, 0 < x) → s.steering_ = 16383 →
      (steerRun cfg s dxs).steering_ = 16383) := by
  have h1 := UpdateSteering_mono cfg s hhi hdx hsens
  refine ⟨h1.1, h1.2, ?_, fun dxs hd => steerRun_saturated cfg hsens dxs s hd⟩
  intro dxs d hd
  rw [steerRun_snoc]
  exact UpdateSteering_mono cfg { steerRun cfg s dxs with mouse_delta_x_ := d }
    (steerRun_le cfg dxs s hhi)
    (hd d (List.mem_append_right _ (List.mem_singleton_self d))) hsens

/-- Witness of `steering_monotone`: position 16380, pending delta 5, default sensitivity 3;
the tick saturates at 16383. -/
theorem steering_monotone_witness :
    ((16380 : ℚ) ≤ 16383 ∧ (0 : Int) < 5 ∧ 0 < defaultConfig.mouse_sens) ∧
    (16380 : ℚ) ≤ (UpdateSteering defaultConfig
      { steering_ := 16380, mouse_delta_x_ := 5 }).steering_ :=
  ⟨⟨by norm_num, by decide, by norm_num [defaultConfig]⟩,
    (steering_monotone defaultConfig { steering_ := 16380, mouse_delta_x_ := 5 }
      (by norm_num) (by decide) (by norm_num [defaultConfig])).1⟩

/-- A released tick leaves no press active. -/
theorem brakeTick_released_idle (pw : ℚ → ℚ → ℚ) (cfg : Config) (s : MouseDrive)
    (k : BrakeTick) (hk : k.pressed = false) :
    (brakeTick pw cfg s k).braking_active_ = false := by
  cases ha : s.braking_active_
  · cases hh : s.brake_release_hold_active_
    · rw [brakeTick_release_idle pw cfg s k hk ha hh]; exact ha
    · by_cases he : (cfg.brake_after_release_hold_ms : ℚ)
          ≤ k.now - s.brake_release_hold_start_time_
      · rw [brakeTick_release_expire pw cfg s k hk ha hh he]; exact ha
      · rw [brakeTick_release_hold pw cfg s k hk ha hh (not_le.mp he)]; exact ha
  · rw [brakeTick_release_first pw cfg s k hk ha]

/-- After a run from rest that is empty or ends in a released tick, no press is active. -/
theorem brakeRun_idle_of_last_released (pw : ℚ → ℚ → ℚ) (cfg : Config) (t0 : ℚ)
    (before : List BrakeTick)
    (hlast : ∀ r : BrakeTick, before.getLast? = some r → r.pressed = false) :
    (brakeRun pw cfg (rest t0) before).braking_active_ = false := by
  rcases List.eq_nil_or_concat before with rfl | ⟨l, r, rfl⟩
  · rfl
  · rw [List.concat_eq_append] at hlast ⊢
    rw [brakeRun_snoc]
    exact brakeTick_released_idle pw cfg _ r (hlast r (by simp))

/-- C10: in every state reached from rest by ticks of `UpdateBrake` (any pattern of presses
and releases, any steering, clock readings and time scales), `brake_post_hold_started_` is
false whenever `braking_active_` is false. Every press, whether the first from rest or a
re-press after a released tick (also a quick one during the post-release hold, whatever
anchor the earlier presses left), with `pre` its ticks before `brake_hold_ms` and `k1` its
first tick at or after `brake_hold_ms`, takes its anchor at `k1`: `k1` sets
`brake_post_hold_start_time_` to `k1.now` and `brake_post_hold_start_value_` to the brake
level held just before `k1` and eases from that anchor; every later tick `k2` of the press
still holds that anchor, and when it is in the Release phase its level is eased from it. -/
theorem release_anchor_fresh (pw : ℚ → ℚ → ℚ) (cfg : Config) (t0 : ℚ) :
    (∀ ticks : List BrakeTick,
      (brakeRun pw cfg (rest t0) ticks).braking_active_ = false →
        (brakeRun pw cfg (rest t0) ticks).brake_post_hold_started_ = false) ∧
    (∀ (before pre : List BrakeTick) (k1 : BrakeTick) (post : List BrakeTick) (k2 : BrakeTick),
      (∀ r : BrakeTick, before.getLast? = some r → r.pressed = false) →
      (∀ k ∈ pre ++ [k1] ++ post ++ [k2], k.pressed = true) →
      (∀ k ∈ pre, k.now - pressStart pre k1 < (cfg.brake_hold_ms : ℚ)) →
      (cfg.brake_hold_ms : ℚ) ≤ k1.now - pressStart pre k1 →
      (brakeRun pw cfg (rest t0) (before ++ (pre ++ [k1]))).brake_post_hold_started_ = true ∧
      (brakeRun pw cfg (rest t0) (before ++ (pre ++ [k1]))).brake_post_hold_start_time_
        = k1.now ∧
      (brakeRun pw cfg (rest t0) (before ++ (pre ++ [k1]))).brake_post_hold_start_value_
        = (brakeRun pw cfg (rest t0) (before ++ pre)).brake_ ∧
      (brakeRun pw cfg (rest t0) (before ++ (pre ++ [k1]))).brake_
        = releaseEase pw cfg (tickMin pw cfg k1) k1.now
            (brakeRun pw cfg (rest t0) (before ++ pre)).brake_ k1.now ∧
      (brakeRun pw cfg (rest t0)
          (before ++ (pre ++ [k1] ++ post ++ [k2]))).brake_post_hold_start_time_ = k1.now ∧
      (brakeRun pw cfg (rest t0)
          (before ++ (pre ++ [k1] ++ post ++ [k2]))).brake_post_hold_start_value_
        = (brakeRun pw cfg (rest t0) (before ++ pre)).brake_ ∧
      ((cfg.brake_hold_ms : ℚ) ≤ k2.now - pressStart pre k1 →
        (brakeRun pw cfg (rest t0) (before ++ (pre ++ [k1] ++ post ++ [k2]))).brake_
          = releaseEase pw cfg (tickMin pw cfg k2) k1.now
              (brakeRun pw cfg (rest t0) (before ++ pre)).brake_ k2.now)) := by
  constructor
  · intro ticks
    exact anchorCleared_run pw cfg ticks (rest t0) (fun _ => rfl)
  · intro before pre k1 post k2 hlast hpress hpre he
    have hidle := brakeRun_idle_of_last_released pw cfg t0 before hlast
    have e0 : brakeRun pw cfg (rest t0) (before ++ pre)
        = brakeRun pw cfg (brakeRun pw cfg (rest t0) before) pre := brakeRun_append _ _ _ _ _
    have e1 : brakeRun pw cfg (rest t0) (before ++ (pre ++ [k1]))
        = brakeRun pw cfg (brakeRun pw cfg (rest t0) before) (pre ++ [k1]) :=
      brakeRun_append _ _ _ _ _
    have e2 : brakeRun pw cfg (rest t0) (before ++ (pre ++ [k1] ++ post ++ [k2]))
        = brakeTick pw cfg (brakeRun pw cfg
            (brakeRun pw cfg (brakeRun pw cfg (rest t0) before) (pre ++ [k1])) post) k2 := by
      rw [brakeRun_append, brakeRun_snoc, brakeRun_append]
    rw [e0, e1, e2]
    generalize brakeRun pw cfg (rest t0) before = sB at hidle ⊢
    have hA := press_anchor pw cfg sB pre k1 hidle
      (fun k hk => ⟨hpress k (by
        simp only [List.mem_append]; exact Or.inl (Or.inl (Or.inl hk))), hpre k hk⟩)
      (hpress k1 (by simp)) he
    obtain ⟨⟨a1, a2, a3, a4, a5⟩, a6⟩ := hA
    have hP := anchorFlags_run pw cfg _ _ _ post _ ⟨a1, a2, a3, a4, a5⟩
      (fun k hk => hpress k (by simp only [List.mem_append]; exact Or.inl (Or.inr hk)))
    have hQ := anchorFlags_tick pw cfg _ _ _ _ k2 hP (hpress k2 (by simp))
    refine ⟨a3, a4, a5, a6, hQ.2.2.2.1, hQ.2.2.2.2, ?_⟩
    intro he2
    obtain ⟨p1, p2, p3, p4, p5⟩ := hP
    rw [brakeTick_hold_release pw cfg _ k2 (hpress k2 (by simp)) p1 p3
      (by rw [p2]; exact not_lt.mpr he2)]
    show releaseEase pw cfg (tickMin pw cfg k2) _ _ k2.now = _
    rw [p4, p5]

/-- Witness of `release_anchor_fresh`: default configuration; a first press with ticks at
0 ms and 1750 ms (anchor taken at 1750 ms), a released tick at 2000 ms, and a re-press
during the post-release hold with ticks at 2100 ms, 3850 ms and 4000 ms. The re-press takes
its anchor at 3850 ms, with the level held just before that tick, and keeps it. -/
theorem release_anchor_fresh_witness :
    (brakeRun powSq defaultConfig (rest 0)
      [⟨true, 0, 0, 1⟩, ⟨true, 0, 1750, 1⟩]).brake_post_hold_start_time_ = 1750 ∧
    (brakeRun powSq defaultConfig (rest 0)
      ([⟨true, 0, 0, 1⟩, ⟨true, 0, 1750, 1⟩, ⟨false, 0, 2000, 1⟩] ++
        ([⟨true, 0, 2100, 1⟩] ++ [⟨true, 0, 3850, 1⟩]))).brake_post_hold_start_time_
        = 3850 ∧
    (brakeRun powSq defaultConfig (rest 0)
      ([⟨true, 0, 0, 1⟩, ⟨true, 0, 1750, 1⟩, ⟨false, 0, 2000, 1⟩] ++
        ([⟨true, 0, 2100, 1⟩] ++ [⟨true, 0, 3850, 1⟩]))).brake_post_hold_start_value_
        = (brakeRun powSq defaultConfig (rest 0)
            ([⟨true, 0, 0, 1⟩, ⟨true, 0, 1750, 1⟩, ⟨false, 0, 2000, 1⟩] ++
              [⟨true, 0, 2100, 1⟩])).brake_ ∧
    (brakeRun powSq defaultConfig (rest 0)
      ([⟨true, 0, 0, 1⟩, ⟨true, 0, 1750, 1⟩, ⟨false, 0, 2000, 1⟩] ++
        ([⟨true, 0, 2100, 1⟩] ++ [⟨true, 0, 3850, 1⟩] ++ [] ++
          [⟨true, 0, 4000, 1⟩]))).brake_post_hold_start_time_ = 3850 := by
  have h := (release_anchor_fresh powSq defaultConfig 0).2
    [⟨true, 0, 0, 1⟩, ⟨true, 0, 1750, 1⟩, ⟨false, 0, 2000, 1⟩] [⟨true, 0, 2100, 1⟩]
    ⟨true, 0, 3850, 1⟩ [] ⟨true, 0, 4000, 1⟩
    (by
      intro r hr
      simp only [List.getLast?, List.getLast, Option.some.injEq] at hr
      subst hr
      rfl)
    (by
      intro k hk
      simp only [List.cons_append, List.nil_append, List.append_nil, List.mem_cons,
        List.mem_singleton, List.mem_nil_iff, or_false] at hk
      rcases hk with rfl | rfl | rfl <;> rfl)
    (by
      intro k hk
      rw [List.mem_singleton] at hk
      subst hk
      norm_num [pressStart, defaultConfig])
    (by norm_num [pressStart, defaultConfig])
  have h1 := (release_anchor_fresh powSq defaultConfig 0).2 [] [⟨true, 0, 0, 1⟩]
    ⟨true, 0, 1750, 1⟩ [] ⟨true, 0, 1750, 1⟩
    (by intro r hr; simp at hr)
    (by
      intro k hk
      simp only [List.cons_append, List.nil_append, List.append_nil, List.mem_cons,
        List.mem_singleton, List.mem_nil_iff, or_false] at hk
      rcases hk with rfl | rfl | rfl <;> rfl)
    (by
      intro k hk
      rw [List.mem_singleton] at hk
      subst hk
      norm_num [pressStart, defaultConfig])
    (by norm_num [pressStart, defaultConfig])
  exact ⟨h1.2.1, h.2.1, h.2.2.1, h.2.2.2.2.1⟩

end MouseDrive
